import Mathlib

/-!
ExampleGraph.c : graph builders and graph composition.

Shallow embedding of `src/c_code/ExampleGraph.c`.  The C code builds graphs by
calling node factories and edge registration functions that mutate a shared
heap of nodes; here that heap is an explicit `World` value threaded through
every call.  A `Node *` is the index of the node in the arena of created nodes.
-/

namespace ExampleGraph

/-! ## Data model -/

/-- A `Node *`: the position of the node in the arena of created nodes. -/
abbrev NodePtr := Nat

/-- Role of a node: what the factory that created it was, with the payload
handed to `Utility_CreateTask`. -/
inductive Role where
  | start : Role
  | task (arg : Int) : Role
  | end_ : Role
  deriving DecidableEq, Repr

/-- One call of an accessor of `Configuration.h`. -/
inductive ConfigCall where
  | GetCondition2 : ConfigCall
  | GetCondition4 : ConfigCall
  | GetCondition7 : ConfigCall
  | GetTask1Arg : ConfigCall
  | GetTask2Arg : ConfigCall
  | GetTask3Arg : ConfigCall
  | GetTask4Arg : ConfigCall
  | GetTask5Arg : ConfigCall
  | GetTask6Arg : ConfigCall
  | GetTask7Arg : ConfigCall
  deriving DecidableEq, Repr

/-- The mutable state the C code works on: the nodes created so far (in
creation order), the registered edges of each kind (in registration order, as
pairs `(from, to)`), and the log of configuration accessor calls. -/
structure World where
  nodes : List Role
  hard : List (NodePtr × NodePtr)
  soft : List (NodePtr × NodePtr)
  undirected : List (NodePtr × NodePtr)
  calls : List ConfigCall
  deriving DecidableEq, Repr

/-- The C type `Graph`, a pair of boundary nodes `{.start, .end}`. -/
structure Graph where
  start : NodePtr
  end_ : NodePtr
  deriving DecidableEq, Repr

/-- The values the configuration provider of `Configuration.h` answers with. -/
structure Configuration where
  condition2 : Bool
  condition4 : Bool
  condition7 : Bool
  task1Arg : Int
  task2Arg : Int
  task3Arg : Int
  task4Arg : Int
  task5Arg : Int
  task6Arg : Int
  task7Arg : Int
  deriving DecidableEq, Repr

/-- The state before anything was created. -/
def World.empty : World :=
  { nodes := [], hard := [], soft := [], undirected := [], calls := [] }

/-- Every registered edge joins two nodes that have been created. -/
def World.WF (w : World) : Prop :=
  ∀ e ∈ w.hard ++ w.soft ++ w.undirected, e.1 < w.nodes.length ∧ e.2 < w.nodes.length

instance (w : World) : Decidable w.WF := by
  unfold World.WF; infer_instance

/-! ## External collaborators (`Utility.h`, `Configuration.h`) -/

/-- Modelled from the spec: `Utility_CreateStart` of `Utility.h` (not among the
sources), §4.1: a factory producing a fresh, uniquely identified node. -/
def Utility_CreateStart (w : World) : NodePtr × World :=
  (w.nodes.length, { w with nodes := w.nodes ++ [Role.start] })

/-- Modelled from the spec: `Utility_CreateTask` of `Utility.h` (not among the
sources), §4.1: a factory producing a fresh task node carrying `data`. -/
def Utility_CreateTask (data : Int) (w : World) : NodePtr × World :=
  (w.nodes.length, { w with nodes := w.nodes ++ [Role.task data] })

/-- Modelled from the spec: `Utility_CreateEnd` of `Utility.h` (not among the
sources), §4.1: a factory producing a fresh, uniquely identified node. -/
def Utility_CreateEnd (w : World) : NodePtr × World :=
  (w.nodes.length, { w with nodes := w.nodes ++ [Role.end_] })

/-- Modelled from the spec: `Utility_LinkDirectedHard` of `Utility.h` (not
among the sources), §4.1: registers a directed hard edge; a no-op when the
identical edge is already registered. -/
def Utility_LinkDirectedHard (src dst : NodePtr) (w : World) : World :=
  if (src, dst) ∈ w.hard then w else { w with hard := w.hard ++ [(src, dst)] }

/-- Modelled from the spec: `Utility_LinkDirectedSoft` of `Utility.h` (not
among the sources), §4.1: registers a directed soft edge; a no-op when the
identical edge is already registered. -/
def Utility_LinkDirectedSoft (src dst : NodePtr) (w : World) : World :=
  if (src, dst) ∈ w.soft then w else { w with soft := w.soft ++ [(src, dst)] }

/-- Modelled from the spec: `Utility_LinkUndirected` of `Utility.h` (not among
the sources), §4.1: registers a symmetric association, stored as an ordered
pair. -/
def Utility_LinkUndirected (a b : NodePtr) (w : World) : World :=
  { w with undirected := w.undirected ++ [(a, b)] }

/-- Modelled from the spec: `Configuration_GetCondition2` of `Configuration.h`
(not among the sources), §6: answers a flag; the call is logged. -/
def Configuration_GetCondition2 (cfg : Configuration) (w : World) : Bool × World :=
  (cfg.condition2, { w with calls := w.calls ++ [ConfigCall.GetCondition2] })

/-- Modelled from the spec: `Configuration_GetCondition4` of `Configuration.h`
(not among the sources), §6: answers a flag; the call is logged. -/
def Configuration_GetCondition4 (cfg : Configuration) (w : World) : Bool × World :=
  (cfg.condition4, { w with calls := w.calls ++ [ConfigCall.GetCondition4] })

/-- Modelled from the spec: `Configuration_GetCondition7` of `Configuration.h`
(not among the sources), §6: answers a flag; the call is logged. -/
def Configuration_GetCondition7 (cfg : Configuration) (w : World) : Bool × World :=
  (cfg.condition7, { w with calls := w.calls ++ [ConfigCall.GetCondition7] })

/-- Modelled from the spec: `Configuration_GetTask1Arg` of `Configuration.h`
(not among the sources), §6: answers a task argument; the call is logged. -/
def Configuration_GetTask1Arg (cfg : Configuration) (w : World) : Int × World :=
  (cfg.task1Arg, { w with calls := w.calls ++ [ConfigCall.GetTask1Arg] })

/-- Modelled from the spec: `Configuration_GetTask2Arg` of `Configuration.h`
(not among the sources), §6: answers a task argument; the call is logged. -/
def Configuration_GetTask2Arg (cfg : Configuration) (w : World) : Int × World :=
  (cfg.task2Arg, { w with calls := w.calls ++ [ConfigCall.GetTask2Arg] })

/-- Modelled from the spec: `Configuration_GetTask3Arg` of `Configuration.h`
(not among the sources), §6: answers a task argument; the call is logged. -/
def Configuration_GetTask3Arg (cfg : Configuration) (w : World) : Int × World :=
  (cfg.task3Arg, { w with calls := w.calls ++ [ConfigCall.GetTask3Arg] })

/-- Modelled from the spec: `Configuration_GetTask4Arg` of `Configuration.h`
(not among the sources), §6: answers a task argument; the call is logged. -/
def Configuration_GetTask4Arg (cfg : Configuration) (w : World) : Int × World :=
  (cfg.task4Arg, { w with calls := w.calls ++ [ConfigCall.GetTask4Arg] })

/-- Modelled from the spec: `Configuration_GetTask5Arg` of `Configuration.h`
(not among the sources), §6: answers a task argument; the call is logged. -/
def Configuration_GetTask5Arg (cfg : Configuration) (w : World) : Int × World :=
  (cfg.task5Arg, { w with calls := w.calls ++ [ConfigCall.GetTask5Arg] })

/-- Modelled from the spec: `Configuration_GetTask6Arg` of `Configuration.h`
(not among the sources), §6: answers a task argument; the call is logged. -/
def Configuration_GetTask6Arg (cfg : Configuration) (w : World) : Int × World :=
  (cfg.task6Arg, { w with calls := w.calls ++ [ConfigCall.GetTask6Arg] })

/-- Modelled from the spec: `Configuration_GetTask7Arg` of `Configuration.h`
(not among the sources), §6: answers a task argument; the call is logged. -/
def Configuration_GetTask7Arg (cfg : Configuration) (w : World) : Int × World :=
  (cfg.task7Arg, { w with calls := w.calls ++ [ConfigCall.GetTask7Arg] })

/-! ## The builders of `ExampleGraph.c` -/

/-- `static Graph CreateTaskDependencyGraph(int arg1, int arg2, int arg3)`,
lines 7-25. -/
def CreateTaskDependencyGraph (arg1 arg2 arg3 : Int) (w : World) : Graph × World :=
  let (start, w) := Utility_CreateStart w
  let (task1, w) := Utility_CreateTask arg1 w
  let (task2, w) := Utility_CreateTask arg2 w
  let (task3, w) := Utility_CreateTask arg3 w
  let (end_, w) := Utility_CreateEnd w
  -- Task 2, 3 definitely wait for task 1
  let w := Utility_LinkDirectedHard start task1 w
  let w := Utility_LinkDirectedHard task1 task2 w
  let w := Utility_LinkDirectedHard task1 task3 w
  -- End waits for either task 2 or task3
  let w := Utility_LinkDirectedSoft task2 end_ w
  let w := Utility_LinkDirectedSoft task3 end_ w
  ({ start := start, end_ := end_ }, w)

/-- `static Graph CreateFinishingGraph(bool condition1)`, lines 27-79. -/
def CreateFinishingGraph (condition1 : Bool) (cfg : Configuration) (w : World) :
    Graph × World :=
  let (start, w) := Utility_CreateStart w
  let (end_, w) := Utility_CreateEnd w
  let (condition2, w) := Configuration_GetCondition2 cfg w
  let (condition4, w) := Configuration_GetCondition4 cfg w
  let (condition7, w) := Configuration_GetCondition7 cfg w
  let w :=
    if condition1 && condition2 then
      let (a3, w) := Configuration_GetTask3Arg cfg w
      let (task3, w) := Utility_CreateTask a3 w
      let (a6, w) := Configuration_GetTask6Arg cfg w
      let (task6, w) := Utility_CreateTask a6 w
      let w := Utility_LinkDirectedHard start task3 w
      let w := Utility_LinkDirectedHard task3 task6 w
      Utility_LinkDirectedHard task3 end_ w
    else if condition1 then
      let (a1, w) := Configuration_GetTask1Arg cfg w
      let (task1, w) := Utility_CreateTask a1 w
      let w := Utility_LinkDirectedHard start task1 w
      let w :=
        if condition4 then
          let (a4, w) := Configuration_GetTask4Arg cfg w
          let (task4, w) := Utility_CreateTask a4 w
          let w := Utility_LinkDirectedHard task1 task4 w
          Utility_LinkDirectedHard task4 end_ w
        else w
      Utility_LinkDirectedHard task1 end_ w
    else
      let (a2, w) := Configuration_GetTask2Arg cfg w
      let (task2, w) := Utility_CreateTask a2 w
      let (a5, w) := Configuration_GetTask5Arg cfg w
      let (task5, w) := Utility_CreateTask a5 w
      let w := Utility_LinkDirectedHard start task2 w
      let w := Utility_LinkDirectedHard start task5 w
      let w := Utility_LinkDirectedSoft task2 end_ w
      Utility_LinkDirectedSoft task2 end_ w
  let w :=
    if !condition7 then
      let (a7, w) := Configuration_GetTask7Arg cfg w
      let (task7, w) := Utility_CreateTask a7 w
      let w := Utility_LinkDirectedHard start task7 w
      Utility_LinkDirectedSoft task7 end_ w
    else w
  ({ start := start, end_ := end_ }, w)

/-- The sample standing for the external `DataflowGraph_Create` in concrete
evaluations: a start node hard-linked to an end node. -/
def DataflowGraph_sample (w : World) : Graph × World :=
  let (start, w) := Utility_CreateStart w
  let (end_, w) := Utility_CreateEnd w
  let w := Utility_LinkDirectedHard start end_ w
  ({ start := start, end_ := end_ }, w)

/-- The local variables of `ExampleGraph_Create` (lines 83-87). -/
structure ExampleLocals where
  taskDependencyGraph1 : Graph
  taskDependencyGraph2 : Graph
  dataflowGraph1 : Graph
  dataflowGraph2 : Graph
  finishingGraph : Graph
  deriving DecidableEq, Repr

/-- Line 99 names `dataflowGraph.start`, and `dataflowGraph` is not a declared
variable: the two declared variables the name can stand for. -/
inductive DataflowName where
  | dataflowGraph1 : DataflowName
  | dataflowGraph2 : DataflowName
  deriving DecidableEq, Repr

/-- Lines 83-97 of `ExampleGraph_Create`: the five graphs are built and
composed.  `DataflowGraph_Create` (of `DataflowGraph.h`, not among the sources)
is a parameter. -/
def ExampleGraph_Create_body (DataflowGraph_Create : World → Graph × World)
    (cfg : Configuration) (w : World) : ExampleLocals × World :=
  let (taskDependencyGraph1, w) := CreateTaskDependencyGraph 1 2 3 w
  let (taskDependencyGraph2, w) := CreateTaskDependencyGraph 4 5 6 w
  let (dataflowGraph1, w) := DataflowGraph_Create w
  let (dataflowGraph2, w) := DataflowGraph_Create w
  let (finishingGraph, w) := CreateFinishingGraph true cfg w
  -- Undirected, just because I can
  let w := Utility_LinkUndirected dataflowGraph1.end_ taskDependencyGraph1.start w
  let w := Utility_LinkUndirected dataflowGraph1.end_ taskDependencyGraph2.start w
  -- If graph2 finishes first, dataflow can execute.
  -- If graph1 finishes first, dataflow still waits for graph2
  let w := Utility_LinkDirectedSoft taskDependencyGraph1.end_ dataflowGraph2.start w
  let w := Utility_LinkDirectedHard taskDependencyGraph2.end_ dataflowGraph2.start w
  let w := Utility_LinkDirectedHard dataflowGraph2.end_ finishingGraph.start w
  ({ taskDependencyGraph1 := taskDependencyGraph1,
     taskDependencyGraph2 := taskDependencyGraph2,
     dataflowGraph1 := dataflowGraph1,
     dataflowGraph2 := dataflowGraph2,
     finishingGraph := finishingGraph }, w)

/-- `Graph ExampleGraph_Create(void)`, lines 81-101.  `name` says which declared
variable the undeclared `dataflowGraph` of line 99 is read as. -/
def ExampleGraph_Create (name : DataflowName)
    (DataflowGraph_Create : World → Graph × World)
    (cfg : Configuration) (w : World) : Graph × World :=
  let (l, w) := ExampleGraph_Create_body DataflowGraph_Create cfg w
  let dataflowGraph :=
    match name with
    | DataflowName.dataflowGraph1 => l.dataflowGraph1
    | DataflowName.dataflowGraph2 => l.dataflowGraph2
  ({ start := dataflowGraph.start, end_ := l.finishingGraph.end_ }, w)

/-! ## Queries on the edge structure -/

/-- The directed edges, hard and soft. -/
def World.directed (w : World) : List (NodePtr × NodePtr) :=
  w.hard ++ w.soft

/-- Sources of the hard edges into `n`. -/
def World.hardPreds (w : World) (n : NodePtr) : List NodePtr :=
  (w.hard.filter (fun e => e.2 = n)).map Prod.fst

/-- Sources of the soft edges into `n`. -/
def World.softPreds (w : World) (n : NodePtr) : List NodePtr :=
  (w.soft.filter (fun e => e.2 = n)).map Prod.fst

/-- Sources of the directed edges into `n`. -/
def World.preds (w : World) (n : NodePtr) : List NodePtr :=
  w.hardPreds n ++ w.softPreds n

/-- Targets of the directed edges out of `n`. -/
def World.succs (w : World) (n : NodePtr) : List NodePtr :=
  (w.directed.filter (fun e => e.1 = n)).map Prod.snd

/-- One directed edge, hard or soft, followed from its source to its target. -/
def World.Edge (w : World) (a b : NodePtr) : Prop :=
  (a, b) ∈ w.directed

instance (w : World) (a b : NodePtr) : Decidable (w.Edge a b) := by
  unfold World.Edge; infer_instance

/-- There is a path of directed edges from `a` to `b`. -/
def World.Reachable (w : World) (a b : NodePtr) : Prop :=
  Relation.ReflTransGen w.Edge a b

/-- Modelled from the spec: the readiness predicate of §3 (the runtime that
evaluates it is not among the sources): every hard predecessor has completed,
and if soft predecessors exist at least one of them has completed. -/
def World.ready (w : World) (completed : NodePtr → Bool) (n : NodePtr) : Bool :=
  (w.hardPreds n).all completed &&
    ((w.softPreds n).isEmpty || (w.softPreds n).any completed)

/-- Completion state after the completion events `events`, in that order. -/
def completedAfter (events : List NodePtr) : NodePtr → Bool :=
  fun n => decide (n ∈ events)

/-! ## Concrete inputs and assumptions on `DataflowGraph_Create` -/

/-- A configuration with `condition2` set and `condition7` clear: the
`task3`/`task6` branch together with the optional `task7` branch. -/
def cfgOptionalBranch : Configuration :=
  { condition2 := true, condition4 := false, condition7 := false,
    task1Arg := 11, task2Arg := 12, task3Arg := 13, task4Arg := 14,
    task5Arg := 15, task6Arg := 16, task7Arg := 17 }

/-- Frame assumption on the external `DataflowGraph_Create`: from a well-formed
state it leaves a well-formed state, and the boundary nodes it returns are
created nodes. -/
def DataflowFrame (D : World → Graph × World) : Prop :=
  ∀ w : World, w.WF →
    (D w).2.WF ∧ (D w).1.start < (D w).2.nodes.length ∧ (D w).1.end_ < (D w).2.nodes.length

/-- Assumption on the external `DataflowGraph_Create`: the start node it
returns has no incoming directed edge. -/
def DataflowStartNoIncoming (D : World → Graph × World) : Prop :=
  ∀ w : World, w.WF → ∀ e ∈ (D w).2.directed, e.2 ≠ (D w).1.start

/-- Assumption on the external `DataflowGraph_Create`: the graph it returns
has a directed path from its own start to its own end. -/
def DataflowConnected (D : World → Graph × World) : Prop :=
  ∀ w : World, w.WF → (D w).2.Reachable (D w).1.start (D w).1.end_

/-- `CreateFinishingGraph(false)` with the duplicated line 67 left out, so that
`Utility_LinkDirectedSoft(task2, end)` is registered once: the graph the
built one is compared with. -/
def CreateFinishingGraph_singleRegistration (cfg : Configuration) (w : World) :
    Graph × World :=
  let (start, w) := Utility_CreateStart w
  let (end_, w) := Utility_CreateEnd w
  let (_, w) := Configuration_GetCondition2 cfg w
  let (_, w) := Configuration_GetCondition4 cfg w
  let (condition7, w) := Configuration_GetCondition7 cfg w
  let (a2, w) := Configuration_GetTask2Arg cfg w
  let (task2, w) := Utility_CreateTask a2 w
  let (a5, w) := Configuration_GetTask5Arg cfg w
  let (task5, w) := Utility_CreateTask a5 w
  let w := Utility_LinkDirectedHard start task2 w
  let w := Utility_LinkDirectedHard start task5 w
  let w := Utility_LinkDirectedSoft task2 end_ w
  let w :=
    if !condition7 then
      let (a7, w) := Configuration_GetTask7Arg cfg w
      let (task7, w) := Utility_CreateTask a7 w
      let w := Utility_LinkDirectedHard start task7 w
      Utility_LinkDirectedSoft task7 end_ w
    else w
  ({ start := start, end_ := end_ }, w)

/-- A configuration with `condition2` and `condition7` set: the `task3`/`task6`
branch alone. -/
def cfgPrimaryOnly : Configuration :=
  { condition2 := true, condition4 := true, condition7 := true,
    task1Arg := 21, task2Arg := 22, task3Arg := 23, task4Arg := 24,
    task5Arg := 25, task6Arg := 26, task7Arg := 27 }

/-- A configuration with `condition2` and `condition4` clear and `condition7`
set: the `task1` branch alone. -/
def cfgTask1Only : Configuration :=
  { condition2 := false, condition4 := false, condition7 := true,
    task1Arg := 31, task2Arg := 32, task3Arg := 33, task4Arg := 34,
    task5Arg := 35, task6Arg := 36, task7Arg := 37 }

/-- The task payload a node carries, if it is a task node. -/
def Role.payload : Role → Option Int
  | Role.task arg => some arg
  | _ => none

/-- The value a task-argument accessor call answers with; `none` for the
calls of the flag accessors. -/
def Configuration.taskArg (cfg : Configuration) : ConfigCall → Option Int
  | ConfigCall.GetTask1Arg => some cfg.task1Arg
  | ConfigCall.GetTask2Arg => some cfg.task2Arg
  | ConfigCall.GetTask3Arg => some cfg.task3Arg
  | ConfigCall.GetTask4Arg => some cfg.task4Arg
  | ConfigCall.GetTask5Arg => some cfg.task5Arg
  | ConfigCall.GetTask6Arg => some cfg.task6Arg
  | ConfigCall.GetTask7Arg => some cfg.task7Arg
  | _ => none

/-- Modelled from the spec: strict sequencing of §4.3, as lines 97 and 99 do
it for `dataflowGraph2` and `finishingGraph`: a hard link from the end of the
first graph to the start of the second; the composed graph has the start of
the first and the end of the second. -/
def StrictSequence (g1 g2 : Graph) (w : World) : Graph × World :=
  ({ start := g1.start, end_ := g2.end_ }, Utility_LinkDirectedHard g1.end_ g2.start w)

/-- Position of a node after one more node has been created at position `k`:
the nodes created from position `k` on move up by one. -/
def shiftFrom (k : Nat) (x : NodePtr) : NodePtr :=
  if k ≤ x then x + 1 else x

/-- An edge after one more node has been created at position `k`. -/
def shiftEdge (k : Nat) (e : NodePtr × NodePtr) : NodePtr × NodePtr :=
  (shiftFrom k e.1, shiftFrom k e.2)

/-- The node `x` lies on some directed path from the start to the end of `g`. -/
def World.OnPath (w : World) (g : Graph) (x : NodePtr) : Prop :=
  w.Reachable g.start x ∧ w.Reachable x g.end_

/-- Assumption on the external `DataflowGraph_Create`: it makes no call of a
configuration accessor that the log records. -/
def DataflowNoConfigCalls (D : World → Graph × World) : Prop :=
  ∀ w : World, (D w).2.calls = w.calls

/-- Modelled from the spec: an execution in which a node completes only when
the readiness predicate of §3 holds for it (§5; the execution engine is not
among the sources).  `run` lists the completed nodes, the latest first. -/
def World.validRun (w : World) : List NodePtr → Bool
  | [] => true
  | x :: earlier => w.ready (completedAfter earlier) x && w.validRun earlier

/-- The pointers of the nodes created between the state `w` and the later
state `v`: one per factory call, the positions from `w.nodes.length` up to
`v.nodes.length`. -/
def createdBy (w v : World) : List NodePtr :=
  List.range' w.nodes.length (v.nodes.length - w.nodes.length)

/-- Assumption on the external `DataflowGraph_Create`: the graph it returns
shares no node with the graphs built before: its boundary nodes are new, it
keeps the directed edges registered before, and the directed edges it
registers join new nodes only. -/
def DataflowLocal (D : World → Graph × World) : Prop :=
  ∀ w : World, w.WF →
    w.nodes.length ≤ (D w).1.start ∧ w.nodes.length ≤ (D w).1.end_ ∧
    (∀ e ∈ w.directed, e ∈ (D w).2.directed) ∧
    (∀ e ∈ (D w).2.directed, e ∉ w.directed →
      w.nodes.length ≤ e.1 ∧ w.nodes.length ≤ e.2)

/-- The directed edges (hard and soft) contain no directed cycle. -/
def World.Acyclic (w : World) : Prop :=
  ∀ x : NodePtr, ¬ Relation.TransGen w.Edge x x

/-- Assumption on the external `DataflowGraph_Create`: the directed edges it
registers form no directed cycle. -/
def DataflowAcyclic (D : World → Graph × World) : Prop :=
  ∀ w : World, w.WF → ∀ x : NodePtr,
    ¬ Relation.TransGen (fun a b => (a, b) ∈ (D w).2.directed ∧ (a, b) ∉ w.directed) x x

/-- The node `x` has no incoming directed edge (hard or soft). -/
def World.isSource (w : World) (x : NodePtr) : Prop :=
  x ∉ w.directed.map Prod.snd

/-- The node `x` has no outgoing directed edge (hard or soft). -/
def World.isSink (w : World) (x : NodePtr) : Prop :=
  x ∉ w.directed.map Prod.fst

instance (w : World) (x : NodePtr) : Decidable (w.isSource x) := by
  unfold World.isSource; infer_instance

instance (w : World) (x : NodePtr) : Decidable (w.isSink x) := by
  unfold World.isSink; infer_instance

/-- Assumption on the external `DataflowGraph_Create`: among the nodes it
creates, the start it returns is the only one without incoming directed edge
and the end it returns the only one without outgoing directed edge. -/
def DataflowSingleSourceSink (D : World → Graph × World) : Prop :=
  ∀ w : World, w.WF → ∀ x : NodePtr, w.nodes.length ≤ x → x < (D w).2.nodes.length →
    ((D w).2.isSource x ↔ x = (D w).1.start) ∧ ((D w).2.isSink x ↔ x = (D w).1.end_)

/-! ## Lemmas on the collaborators -/

theorem World.WF.hard_fresh {w : World} (h : w.WF) (a b : NodePtr)
    (hab : w.nodes.length ≤ a ∨ w.nodes.length ≤ b) : ((a, b) ∈ w.hard) = False := by
  apply eq_false
  intro hm
  have hlt : a < w.nodes.length ∧ b < w.nodes.length := h (a, b) (by simp [hm])
  obtain ⟨ha, hb⟩ := hlt
  rcases hab with hab | hab
  · exact absurd ha (Nat.not_lt.mpr hab)
  · exact absurd hb (Nat.not_lt.mpr hab)

theorem World.WF.soft_fresh {w : World} (h : w.WF) (a b : NodePtr)
    (hab : w.nodes.length ≤ a ∨ w.nodes.length ≤ b) : ((a, b) ∈ w.soft) = False := by
  apply eq_false
  intro hm
  have hlt : a < w.nodes.length ∧ b < w.nodes.length := h (a, b) (by simp [hm])
  obtain ⟨ha, hb⟩ := hlt
  rcases hab with hab | hab
  · exact absurd ha (Nat.not_lt.mpr hab)
  · exact absurd hb (Nat.not_lt.mpr hab)

theorem World.empty_WF : World.empty.WF := by
  intro e he
  simp [World.empty] at he

@[simp]
theorem mem_hard_LinkDirectedHard (a b : NodePtr) (w : World) (e : NodePtr × NodePtr) :
    e ∈ (Utility_LinkDirectedHard a b w).hard ↔ e ∈ w.hard ∨ e = (a, b) := by
  unfold Utility_LinkDirectedHard
  split
  · constructor
    · intro h; exact Or.inl h
    · rintro (h | h)
      · exact h
      · subst h; assumption
  · simp

@[simp]
theorem soft_LinkDirectedHard (a b : NodePtr) (w : World) :
    (Utility_LinkDirectedHard a b w).soft = w.soft := by
  unfold Utility_LinkDirectedHard; split <;> rfl

@[simp]
theorem nodes_LinkDirectedHard (a b : NodePtr) (w : World) :
    (Utility_LinkDirectedHard a b w).nodes = w.nodes := by
  unfold Utility_LinkDirectedHard; split <;> rfl

@[simp]
theorem mem_soft_LinkDirectedSoft (a b : NodePtr) (w : World) (e : NodePtr × NodePtr) :
    e ∈ (Utility_LinkDirectedSoft a b w).soft ↔ e ∈ w.soft ∨ e = (a, b) := by
  unfold Utility_LinkDirectedSoft
  split
  · constructor
    · intro h; exact Or.inl h
    · rintro (h | h)
      · exact h
      · subst h; assumption
  · simp

@[simp]
theorem hard_LinkDirectedSoft (a b : NodePtr) (w : World) :
    (Utility_LinkDirectedSoft a b w).hard = w.hard := by
  unfold Utility_LinkDirectedSoft; split <;> rfl

@[simp]
theorem nodes_LinkDirectedSoft (a b : NodePtr) (w : World) :
    (Utility_LinkDirectedSoft a b w).nodes = w.nodes := by
  unfold Utility_LinkDirectedSoft; split <;> rfl

theorem CreateFinishingGraph_graph (condition1 : Bool) (cfg : Configuration) (w : World) :
    (CreateFinishingGraph condition1 cfg w).1 =
      { start := w.nodes.length, end_ := w.nodes.length + 1 } := by
  simp [CreateFinishingGraph, Utility_CreateStart, Utility_CreateEnd]

/-- The finishing graph has a directed path from its start to its end. -/
theorem CreateFinishingGraph_reachable (condition1 : Bool) (cfg : Configuration) (w : World) :
    (CreateFinishingGraph condition1 cfg w).2.Reachable
      (CreateFinishingGraph condition1 cfg w).1.start
      (CreateFinishingGraph condition1 cfg w).1.end_ := by
  rw [CreateFinishingGraph_graph]
  obtain ⟨c2, c4, c7, a1, a2, a3, a4, a5, a6, a7⟩ := cfg
  refine Relation.ReflTransGen.head (b := w.nodes.length + 2) ?_ (Relation.ReflTransGen.single ?_)
  all_goals
    cases condition1 <;> cases c2 <;> cases c4 <;> cases c7 <;>
    simp [World.Edge, World.directed, CreateFinishingGraph, Utility_CreateStart,
      Utility_CreateTask, Utility_CreateEnd,
      Configuration_GetCondition2, Configuration_GetCondition4, Configuration_GetCondition7,
      Configuration_GetTask1Arg, Configuration_GetTask2Arg, Configuration_GetTask3Arg,
      Configuration_GetTask4Arg, Configuration_GetTask5Arg, Configuration_GetTask6Arg,
      Configuration_GetTask7Arg]

/-! ## The shape of what the builders register -/

theorem CreateTaskDependencyGraph_eq (arg1 arg2 arg3 : Int) (w : World) (h : w.WF) :
    CreateTaskDependencyGraph arg1 arg2 arg3 w =
      ({ start := w.nodes.length, end_ := w.nodes.length + 4 },
       { w with
         nodes := w.nodes ++
           [Role.start, Role.task arg1, Role.task arg2, Role.task arg3, Role.end_],
         hard := w.hard ++ [(w.nodes.length, w.nodes.length + 1),
           (w.nodes.length + 1, w.nodes.length + 2), (w.nodes.length + 1, w.nodes.length + 3)],
         soft := w.soft ++ [(w.nodes.length + 2, w.nodes.length + 4),
           (w.nodes.length + 3, w.nodes.length + 4)] }) := by
  simp [CreateTaskDependencyGraph, Utility_CreateStart, Utility_CreateTask, Utility_CreateEnd,
    Utility_LinkDirectedHard, Utility_LinkDirectedSoft, h.hard_fresh, h.soft_fresh]

/-- C2: from a well-formed state with `n` nodes, `CreateTaskDependencyGraph`
creates exactly the five nodes `n .. n+4` (start, task1 with payload `arg1`,
task2 with `arg2`, task3 with `arg3`, end), pairwise distinct, and registers
exactly hard(start, task1), hard(task1, task2), hard(task1, task3),
soft(task2, end), soft(task3, end); the boundary pair and the edges are the
same for every other choice of arguments. -/
theorem C2_task_dependency_graph_shape (arg1 arg2 arg3 : Int) (w : World) (h : w.WF) :
    (CreateTaskDependencyGraph arg1 arg2 arg3 w).1 =
      { start := w.nodes.length, end_ := w.nodes.length + 4 } ∧
    (CreateTaskDependencyGraph arg1 arg2 arg3 w).2.nodes = w.nodes ++
      [Role.start, Role.task arg1, Role.task arg2, Role.task arg3, Role.end_] ∧
    [w.nodes.length, w.nodes.length + 1, w.nodes.length + 2, w.nodes.length + 3,
      w.nodes.length + 4].Nodup ∧
    (CreateTaskDependencyGraph arg1 arg2 arg3 w).2.hard = w.hard ++
      [(w.nodes.length, w.nodes.length + 1), (w.nodes.length + 1, w.nodes.length + 2),
       (w.nodes.length + 1, w.nodes.length + 3)] ∧
    (CreateTaskDependencyGraph arg1 arg2 arg3 w).2.soft = w.soft ++
      [(w.nodes.length + 2, w.nodes.length + 4), (w.nodes.length + 3, w.nodes.length + 4)] ∧
    (CreateTaskDependencyGraph arg1 arg2 arg3 w).2.undirected = w.undirected ∧
    ∀ b1 b2 b3 : Int,
      (CreateTaskDependencyGraph b1 b2 b3 w).1 = (CreateTaskDependencyGraph arg1 arg2 arg3 w).1 ∧
      (CreateTaskDependencyGraph b1 b2 b3 w).2.hard =
        (CreateTaskDependencyGraph arg1 arg2 arg3 w).2.hard ∧
      (CreateTaskDependencyGraph b1 b2 b3 w).2.soft =
        (CreateTaskDependencyGraph arg1 arg2 arg3 w).2.soft ∧
      (CreateTaskDependencyGraph b1 b2 b3 w).2.undirected =
        (CreateTaskDependencyGraph arg1 arg2 arg3 w).2.undirected := by
  simp [CreateTaskDependencyGraph_eq _ _ _ w h]

/-- Witness of C2 at `CreateTaskDependencyGraph(1, 2, 3)` from the empty state. -/
theorem C2_task_dependency_graph_shape_witness :
    World.empty.WF ∧
    (CreateTaskDependencyGraph 1 2 3 World.empty).1 = { start := 0, end_ := 4 } ∧
    (CreateTaskDependencyGraph 1 2 3 World.empty).2.nodes =
      [Role.start, Role.task 1, Role.task 2, Role.task 3, Role.end_] ∧
    (CreateTaskDependencyGraph 1 2 3 World.empty).2.hard = [(0, 1), (1, 2), (1, 3)] ∧
    (CreateTaskDependencyGraph 1 2 3 World.empty).2.soft = [(2, 4), (3, 4)] := by
  have h := C2_task_dependency_graph_shape 1 2 3 World.empty World.empty_WF
  exact ⟨World.empty_WF, h.1, h.2.1, h.2.2.2.1, h.2.2.2.2.1⟩

theorem World.WF.hardPreds_fresh {w : World} (h : w.WF) (x : NodePtr)
    (hx : w.nodes.length ≤ x) : w.hard.filter (fun e => e.2 = x) = [] := by
  rw [List.filter_eq_nil_iff]
  rintro ⟨a, b⟩ hm
  have hlt : a < w.nodes.length ∧ b < w.nodes.length := h (a, b) (by simp [hm])
  simp only [decide_eq_true_eq]
  intro hbx
  exact absurd (hbx ▸ hlt.2) (Nat.not_lt.mpr hx)

theorem World.WF.softPreds_fresh {w : World} (h : w.WF) (x : NodePtr)
    (hx : w.nodes.length ≤ x) : w.soft.filter (fun e => e.2 = x) = [] := by
  rw [List.filter_eq_nil_iff]
  rintro ⟨a, b⟩ hm
  have hlt : a < w.nodes.length ∧ b < w.nodes.length := h (a, b) (by simp [hm])
  simp only [decide_eq_true_eq]
  intro hbx
  exact absurd (hbx ▸ hlt.2) (Nat.not_lt.mpr hx)

theorem CreateFinishingGraph_eq (condition1 : Bool) (cfg : Configuration) (w : World)
    (h : w.WF) :
    CreateFinishingGraph condition1 cfg w =
      ({ start := w.nodes.length, end_ := w.nodes.length + 1 },
       { nodes := w.nodes ++ [Role.start, Role.end_] ++
           (if condition1 && cfg.condition2 then
              [Role.task cfg.task3Arg, Role.task cfg.task6Arg]
            else if condition1 then
              Role.task cfg.task1Arg ::
                (if cfg.condition4 then [Role.task cfg.task4Arg] else [])
            else [Role.task cfg.task2Arg, Role.task cfg.task5Arg]) ++
           (if cfg.condition7 then [] else [Role.task cfg.task7Arg]),
         hard := w.hard ++
           (if condition1 && cfg.condition2 then
              [(w.nodes.length, w.nodes.length + 2), (w.nodes.length + 2, w.nodes.length + 3),
               (w.nodes.length + 2, w.nodes.length + 1)]
            else if condition1 then
              (w.nodes.length, w.nodes.length + 2) ::
                ((if cfg.condition4 then
                    [(w.nodes.length + 2, w.nodes.length + 3),
                     (w.nodes.length + 3, w.nodes.length + 1)]
                  else []) ++ [(w.nodes.length + 2, w.nodes.length + 1)])
            else [(w.nodes.length, w.nodes.length + 2), (w.nodes.length, w.nodes.length + 3)]) ++
           (if cfg.condition7 then []
            else [(w.nodes.length, w.nodes.length +
              (if condition1 && !cfg.condition2 && !cfg.condition4 then 3 else 4))]),
         soft := w.soft ++
           (if condition1 then [] else [(w.nodes.length + 2, w.nodes.length + 1)]) ++
           (if cfg.condition7 then []
            else [(w.nodes.length +
              (if condition1 && !cfg.condition2 && !cfg.condition4 then 3 else 4),
              w.nodes.length + 1)]),
         undirected := w.undirected,
         calls := w.calls ++
           [ConfigCall.GetCondition2, ConfigCall.GetCondition4, ConfigCall.GetCondition7] ++
           (if condition1 && cfg.condition2 then
              [ConfigCall.GetTask3Arg, ConfigCall.GetTask6Arg]
            else if condition1 then
              ConfigCall.GetTask1Arg ::
                (if cfg.condition4 then [ConfigCall.GetTask4Arg] else [])
            else [ConfigCall.GetTask2Arg, ConfigCall.GetTask5Arg]) ++
           (if cfg.condition7 then [] else [ConfigCall.GetTask7Arg]) }) := by
  obtain ⟨c2, c4, c7, a1, a2, a3, a4, a5, a6, a7⟩ := cfg
  cases condition1 <;> cases c2 <;> cases c4 <;> cases c7 <;>
  simp [CreateFinishingGraph, Utility_CreateStart, Utility_CreateTask, Utility_CreateEnd,
    Utility_LinkDirectedHard, Utility_LinkDirectedSoft, h.hard_fresh, h.soft_fresh,
    Configuration_GetCondition2, Configuration_GetCondition4, Configuration_GetCondition7,
    Configuration_GetTask1Arg, Configuration_GetTask2Arg, Configuration_GetTask3Arg,
    Configuration_GetTask4Arg, Configuration_GetTask5Arg, Configuration_GetTask6Arg,
    Configuration_GetTask7Arg]

/-- C3, counterexample: with `condition1` and `condition2` true and
`condition7` false, the end node (node 1) has the two predecessors task3
(node 2) and task7 (node 4), so task3 is not its only predecessor. -/
theorem C3_counterexample_task7_precedes_end :
    cfgOptionalBranch.condition2 = true ∧
    (CreateFinishingGraph true cfgOptionalBranch World.empty).1 = { start := 0, end_ := 1 } ∧
    (CreateFinishingGraph true cfgOptionalBranch World.empty).2.nodes =
      [Role.start, Role.end_, Role.task 13, Role.task 16, Role.task 17] ∧
    (CreateFinishingGraph true cfgOptionalBranch World.empty).2.preds 1 = [2, 4] ∧
    ¬ (∀ p ∈ (CreateFinishingGraph true cfgOptionalBranch World.empty).2.preds
          (CreateFinishingGraph true cfgOptionalBranch World.empty).1.end_, p = 2) := by
  decide

/-- C3 as amended: whenever `condition1` and `condition2` are both true (for
every value of `condition4` and `condition7`), from a well-formed state with
`n` nodes the builder creates exactly start `n`, end `n+1`, task3 `n+2`, task6
`n+3` and, when `condition7` is false, task7 `n+4`; it registers the hard edges
(start, task3), (task3, task6), (task3, end) and, when `condition7` is false,
hard (start, task7) and soft (task7, end), and no others; task3 is the only
predecessor of task6 and the only hard predecessor of end, and end has no soft
predecessor when `condition7` is true and exactly task7 otherwise; the
accessors of the task1, task2, task4 and task5 payloads are not called. -/
theorem C3_both_true_shape (cfg : Configuration) (w : World) (h : w.WF)
    (h2 : cfg.condition2 = true) :
    (CreateFinishingGraph true cfg w).1 =
      { start := w.nodes.length, end_ := w.nodes.length + 1 } ∧
    (CreateFinishingGraph true cfg w).2.nodes = w.nodes ++
      [Role.start, Role.end_, Role.task cfg.task3Arg, Role.task cfg.task6Arg] ++
      (if cfg.condition7 then [] else [Role.task cfg.task7Arg]) ∧
    (CreateFinishingGraph true cfg w).2.hard = w.hard ++
      [(w.nodes.length, w.nodes.length + 2), (w.nodes.length + 2, w.nodes.length + 3),
       (w.nodes.length + 2, w.nodes.length + 1)] ++
      (if cfg.condition7 then [] else [(w.nodes.length, w.nodes.length + 4)]) ∧
    (CreateFinishingGraph true cfg w).2.soft = w.soft ++
      (if cfg.condition7 then [] else [(w.nodes.length + 4, w.nodes.length + 1)]) ∧
    (CreateFinishingGraph true cfg w).2.preds (w.nodes.length + 3) = [w.nodes.length + 2] ∧
    (CreateFinishingGraph true cfg w).2.hardPreds (w.nodes.length + 1) =
      [w.nodes.length + 2] ∧
    (CreateFinishingGraph true cfg w).2.softPreds (w.nodes.length + 1) =
      (if cfg.condition7 then [] else [w.nodes.length + 4]) ∧
    (CreateFinishingGraph true cfg w).2.calls = w.calls ++
      [ConfigCall.GetCondition2, ConfigCall.GetCondition4, ConfigCall.GetCondition7,
       ConfigCall.GetTask3Arg, ConfigCall.GetTask6Arg] ++
      (if cfg.condition7 then [] else [ConfigCall.GetTask7Arg]) := by
  rw [CreateFinishingGraph_eq true cfg w h]
  cases h7 : cfg.condition7 <;>
  simp [h2, h7, World.preds, World.hardPreds, World.softPreds, List.filter_cons,
    h.hardPreds_fresh, h.softPreds_fresh]

/-- Witness of the amended C3 at `cfgPrimaryOnly` from the empty state. -/
theorem C3_both_true_shape_witness :
    World.empty.WF ∧ cfgPrimaryOnly.condition2 = true ∧
    (CreateFinishingGraph true cfgPrimaryOnly World.empty).2.nodes =
      [Role.start, Role.end_, Role.task 23, Role.task 26] ∧
    (CreateFinishingGraph true cfgPrimaryOnly World.empty).2.hard = [(0, 2), (2, 3), (2, 1)] ∧
    (CreateFinishingGraph true cfgPrimaryOnly World.empty).2.soft = [] ∧
    (CreateFinishingGraph true cfgPrimaryOnly World.empty).2.hardPreds 1 = [2] ∧
    (CreateFinishingGraph true cfgPrimaryOnly World.empty).2.softPreds 1 = [] := by
  have h := C3_both_true_shape cfgPrimaryOnly World.empty World.empty_WF rfl
  exact ⟨World.empty_WF, rfl, h.2.1, h.2.2.1, h.2.2.2.1, h.2.2.2.2.2.1, h.2.2.2.2.2.2.1⟩

/-! ## Well-formedness and predecessor lemmas -/

theorem CreateTaskDependencyGraph_WF (arg1 arg2 arg3 : Int) (w : World) (h : w.WF) :
    (CreateTaskDependencyGraph arg1 arg2 arg3 w).2.WF := by
  rw [CreateTaskDependencyGraph_eq _ _ _ w h]
  rintro ⟨a, b⟩ he
  have hw := h (a, b)
  simp only [List.mem_append, List.mem_cons, Prod.mk.injEq, List.mem_singleton,
    List.length_append, List.length_cons, List.length_nil, List.not_mem_nil, or_false] at he hw ⊢
  simp only [NodePtr] at *
  rcases he with ((he | he | he | he) | (he | he | he)) | he
  · have := hw (Or.inl (Or.inl he)); omega
  · omega
  · omega
  · omega
  · have := hw (Or.inl (Or.inr he)); omega
  · omega
  · omega
  · have := hw (Or.inr he); omega

theorem hardPreds_LinkDirectedHard (a b x : NodePtr) (w : World) :
    (Utility_LinkDirectedHard a b w).hardPreds x =
      if b = x ∧ (a, b) ∉ w.hard then w.hardPreds x ++ [a] else w.hardPreds x := by
  unfold Utility_LinkDirectedHard World.hardPreds
  by_cases hm : (a, b) ∈ w.hard
  · simp [hm]
  · rw [if_neg hm]
    by_cases hb : b = x
    · subst hb; simp [hm, List.filter_cons]
    · simp [hb, List.filter_cons]

theorem softPreds_LinkDirectedSoft (a b x : NodePtr) (w : World) :
    (Utility_LinkDirectedSoft a b w).softPreds x =
      if b = x ∧ (a, b) ∉ w.soft then w.softPreds x ++ [a] else w.softPreds x := by
  unfold Utility_LinkDirectedSoft World.softPreds
  by_cases hm : (a, b) ∈ w.soft
  · simp [hm]
  · rw [if_neg hm]
    by_cases hb : b = x
    · subst hb; simp [hm, List.filter_cons]
    · simp [hb, List.filter_cons]

theorem filter_hard_LinkDirectedHard_ne (a b x : NodePtr) (w : World) (hb : b ≠ x) :
    (Utility_LinkDirectedHard a b w).hard.filter (fun e => decide (e.2 = x)) =
      w.hard.filter (fun e => decide (e.2 = x)) := by
  unfold Utility_LinkDirectedHard
  split
  · rfl
  · simp [List.filter_cons, hb]

theorem filter_soft_LinkDirectedSoft_ne (a b x : NodePtr) (w : World) (hb : b ≠ x) :
    (Utility_LinkDirectedSoft a b w).soft.filter (fun e => decide (e.2 = x)) =
      w.soft.filter (fun e => decide (e.2 = x)) := by
  unfold Utility_LinkDirectedSoft
  split
  · rfl
  · simp [List.filter_cons, hb]

@[simp]
theorem softPreds_LinkDirectedHard (a b x : NodePtr) (w : World) :
    (Utility_LinkDirectedHard a b w).softPreds x = w.softPreds x := by
  simp [World.softPreds]

@[simp]
theorem hardPreds_LinkDirectedSoft (a b x : NodePtr) (w : World) :
    (Utility_LinkDirectedSoft a b w).hardPreds x = w.hardPreds x := by
  simp [World.hardPreds]

@[simp]
theorem hardPreds_LinkUndirected (a b x : NodePtr) (w : World) :
    (Utility_LinkUndirected a b w).hardPreds x = w.hardPreds x := rfl

@[simp]
theorem softPreds_LinkUndirected (a b x : NodePtr) (w : World) :
    (Utility_LinkUndirected a b w).softPreds x = w.softPreds x := rfl

/-- `CreateFinishingGraph` registers no edge into a node that existed before
the call. -/
theorem CreateFinishingGraph_preds_old (condition1 : Bool) (cfg : Configuration) (w : World)
    (x : NodePtr) (hx : x < w.nodes.length) :
    (CreateFinishingGraph condition1 cfg w).2.hardPreds x = w.hardPreds x ∧
    (CreateFinishingGraph condition1 cfg w).2.softPreds x = w.softPreds x := by
  have hne : ∀ k : Nat, w.nodes.length + k ≠ x := by
    intro k; simp only [NodePtr] at *; omega
  have hne0 : w.nodes.length ≠ x := by
    simp only [NodePtr] at *; omega
  obtain ⟨c2, c4, c7, a1, a2, a3, a4, a5, a6, a7⟩ := cfg
  cases condition1 <;> cases c2 <;> cases c4 <;> cases c7 <;>
  simp [CreateFinishingGraph, Utility_CreateStart, Utility_CreateTask, Utility_CreateEnd,
    filter_hard_LinkDirectedHard_ne, filter_soft_LinkDirectedSoft_ne, hne, hne0,
    Configuration_GetCondition2, Configuration_GetCondition4, Configuration_GetCondition7,
    Configuration_GetTask1Arg, Configuration_GetTask2Arg, Configuration_GetTask3Arg,
    Configuration_GetTask4Arg, Configuration_GetTask5Arg, Configuration_GetTask6Arg,
    Configuration_GetTask7Arg, World.hardPreds, World.softPreds]

@[simp]
theorem hard_LinkUndirected (a b : NodePtr) (w : World) :
    (Utility_LinkUndirected a b w).hard = w.hard := rfl

@[simp]
theorem soft_LinkUndirected (a b : NodePtr) (w : World) :
    (Utility_LinkUndirected a b w).soft = w.soft := rfl

theorem not_mem_hard_of_hardPreds_nil {w : World} {x : NodePtr} (h : w.hardPreds x = [])
    (a : NodePtr) : (a, x) ∉ w.hard := by
  intro hm
  have : a ∈ w.hardPreds x := by
    simp only [World.hardPreds, List.mem_map, List.mem_filter]
    exact ⟨(a, x), ⟨hm, by simp⟩, rfl⟩
  rw [h] at this
  exact List.not_mem_nil _ this

theorem not_mem_soft_of_softPreds_nil {w : World} {x : NodePtr} (h : w.softPreds x = [])
    (a : NodePtr) : (a, x) ∉ w.soft := by
  intro hm
  have : a ∈ w.softPreds x := by
    simp only [World.softPreds, List.mem_map, List.mem_filter]
    exact ⟨(a, x), ⟨hm, by simp⟩, rfl⟩
  rw [h] at this
  exact List.not_mem_nil _ this

theorem preds_nil_of_no_incoming {w : World} {x : NodePtr}
    (h : ∀ e ∈ w.directed, e.2 ≠ x) : w.hardPreds x = [] ∧ w.softPreds x = [] := by
  constructor
  · simp only [World.hardPreds, List.map_eq_nil_iff, List.filter_eq_nil_iff, decide_eq_true_eq]
    intro e he
    exact h e (by simp [World.directed, he])
  · simp only [World.softPreds, List.map_eq_nil_iff, List.filter_eq_nil_iff, decide_eq_true_eq]
    intro e he
    exact h e (by simp [World.directed, he])

/-- The predecessors of `dataflowGraph2.start` after the composition steps. -/
theorem ExampleGraph_Create_body_dataflow2_preds (D : World → Graph × World)
    (cfg : Configuration) (w : World) (h : w.WF) (hF : DataflowFrame D)
    (hS : DataflowStartNoIncoming D) :
    (ExampleGraph_Create_body D cfg w).2.hardPreds
        (ExampleGraph_Create_body D cfg w).1.dataflowGraph2.start =
      [(ExampleGraph_Create_body D cfg w).1.taskDependencyGraph2.end_] ∧
    (ExampleGraph_Create_body D cfg w).2.softPreds
        (ExampleGraph_Create_body D cfg w).1.dataflowGraph2.start =
      [(ExampleGraph_Create_body D cfg w).1.taskDependencyGraph1.end_] := by
  unfold ExampleGraph_Create_body
  have hw1 := CreateTaskDependencyGraph_WF 1 2 3 w h
  generalize CreateTaskDependencyGraph 1 2 3 w = r at hw1 ⊢
  obtain ⟨td1, w1⟩ := r
  dsimp only at hw1 ⊢
  have hw2 := CreateTaskDependencyGraph_WF 4 5 6 w1 hw1
  generalize CreateTaskDependencyGraph 4 5 6 w1 = r at hw2 ⊢
  obtain ⟨td2, w2⟩ := r
  dsimp only at hw2 ⊢
  have hw3 := (hF w2 hw2).1
  generalize D w2 = r at hw3 ⊢
  obtain ⟨df1, w3⟩ := r
  dsimp only at hw3 ⊢
  have hf4 := hF w3 hw3
  have hs4 := hS w3 hw3
  generalize D w3 = r at hf4 hs4 ⊢
  obtain ⟨df2, w4⟩ := r
  dsimp only at hf4 hs4 ⊢
  have hp := CreateFinishingGraph_preds_old true cfg w4 df2.start hf4.2.1
  have hg := CreateFinishingGraph_graph true cfg w4
  generalize CreateFinishingGraph true cfg w4 = r at hp hg ⊢
  obtain ⟨fin, w5⟩ := r
  dsimp only at hp hg ⊢
  obtain ⟨hh4, hs4'⟩ := preds_nil_of_no_incoming hs4
  have hh5 : w5.hardPreds df2.start = [] := by rw [hp.1, hh4]
  have hs5 : w5.softPreds df2.start = [] := by rw [hp.2, hs4']
  have hne : fin.start ≠ df2.start := by
    rw [hg]
    have := hf4.2.1
    simp only [NodePtr] at *
    omega
  simp [hardPreds_LinkDirectedHard, softPreds_LinkDirectedSoft, hne, hh5, hs5,
    not_mem_hard_of_hardPreds_nil hh5, not_mem_soft_of_softPreds_nil hs5]

/-! ## The sample dataflow graph meets the assumptions -/

theorem DataflowGraph_sample_eq (w : World) (h : w.WF) :
    DataflowGraph_sample w =
      ({ start := w.nodes.length, end_ := w.nodes.length + 1 },
       { w with
         nodes := w.nodes ++ [Role.start, Role.end_],
         hard := w.hard ++ [(w.nodes.length, w.nodes.length + 1)] }) := by
  simp [DataflowGraph_sample, Utility_CreateStart, Utility_CreateEnd,
    Utility_LinkDirectedHard, h.hard_fresh]

theorem DataflowGraph_sample_frame : DataflowFrame DataflowGraph_sample := by
  intro w h
  rw [DataflowGraph_sample_eq w h]
  refine ⟨?_, by simp, by simp⟩
  rintro ⟨a, b⟩ he
  have hw := h (a, b)
  simp only [List.mem_append, List.mem_cons, Prod.mk.injEq, List.mem_singleton,
    List.length_append, List.length_cons, List.length_nil, List.not_mem_nil, or_false] at he hw ⊢
  simp only [NodePtr] at *
  rcases he with ((he | he) | he) | he
  · have := hw (Or.inl (Or.inl he)); omega
  · omega
  · have := hw (Or.inl (Or.inr he)); omega
  · have := hw (Or.inr he); omega

theorem DataflowGraph_sample_startNoIncoming :
    DataflowStartNoIncoming DataflowGraph_sample := by
  intro w h
  rw [DataflowGraph_sample_eq w h]
  rintro ⟨a, b⟩ he
  have hw := h (a, b)
  simp only [World.directed, List.mem_append, List.mem_cons, Prod.mk.injEq, List.mem_singleton,
    List.not_mem_nil, or_false] at he hw ⊢
  simp only [NodePtr] at *
  rcases he with (he | he) | he
  · have := hw (Or.inl (Or.inl he)); omega
  · omega
  · have := hw (Or.inl (Or.inr he)); omega

theorem DataflowGraph_sample_connected : DataflowConnected DataflowGraph_sample := by
  intro w h
  rw [DataflowGraph_sample_eq w h]
  apply Relation.ReflTransGen.single
  simp [World.Edge, World.directed]

/-! ## Readiness of `dataflowGraph2.start` -/

/-- C4: in the graph assembled by `ExampleGraph_Create` (from a well-formed
state, with a `DataflowGraph_Create` whose returned start node is a created
node without incoming directed edge), `dataflowGraph2.start` has exactly the
hard predecessor `taskDependencyGraph2.end` and exactly the soft predecessor
`taskDependencyGraph1.end`; so after any sequence of completion events it is
ready if and only if both ends are among the completed nodes, in whatever
order they completed. -/
theorem C4_dataflow2_start_mixed_gate (D : World → Graph × World) (cfg : Configuration)
    (w : World) (h : w.WF) (hF : DataflowFrame D) (hS : DataflowStartNoIncoming D) :
    (ExampleGraph_Create_body D cfg w).2.hardPreds
        (ExampleGraph_Create_body D cfg w).1.dataflowGraph2.start =
      [(ExampleGraph_Create_body D cfg w).1.taskDependencyGraph2.end_] ∧
    (ExampleGraph_Create_body D cfg w).2.softPreds
        (ExampleGraph_Create_body D cfg w).1.dataflowGraph2.start =
      [(ExampleGraph_Create_body D cfg w).1.taskDependencyGraph1.end_] ∧
    ∀ events : List NodePtr,
      (ExampleGraph_Create_body D cfg w).2.ready (completedAfter events)
          (ExampleGraph_Create_body D cfg w).1.dataflowGraph2.start = true ↔
        (ExampleGraph_Create_body D cfg w).1.taskDependencyGraph2.end_ ∈ events ∧
        (ExampleGraph_Create_body D cfg w).1.taskDependencyGraph1.end_ ∈ events := by
  obtain ⟨hh, hs⟩ := ExampleGraph_Create_body_dataflow2_preds D cfg w h hF hS
  refine ⟨hh, hs, ?_⟩
  intro events
  simp [World.ready, hh, hs, completedAfter]

/-- Witness of C4 with the sample dataflow graph, from the empty state:
`dataflowGraph2.start` is node 12, `taskDependencyGraph2.end` node 9 and
`taskDependencyGraph1.end` node 4. -/
theorem C4_dataflow2_start_mixed_gate_witness :
    World.empty.WF ∧ DataflowFrame DataflowGraph_sample ∧
    DataflowStartNoIncoming DataflowGraph_sample ∧
    (ExampleGraph_Create_body DataflowGraph_sample cfgPrimaryOnly World.empty).2.hardPreds 12
      = [9] ∧
    (ExampleGraph_Create_body DataflowGraph_sample cfgPrimaryOnly World.empty).2.softPreds 12
      = [4] ∧
    ((ExampleGraph_Create_body DataflowGraph_sample cfgPrimaryOnly World.empty).2.ready
        (completedAfter [4, 9]) 12 = true ↔ 9 ∈ [4, 9] ∧ 4 ∈ [4, 9]) := by
  have h := C4_dataflow2_start_mixed_gate DataflowGraph_sample cfgPrimaryOnly World.empty
    World.empty_WF DataflowGraph_sample_frame DataflowGraph_sample_startNoIncoming
  exact ⟨World.empty_WF, DataflowGraph_sample_frame, DataflowGraph_sample_startNoIncoming,
    h.1, h.2.1, h.2.2 [4, 9]⟩

/-- Under the readiness predicate, `dataflowGraph2.start` is not ready when
only one of the two task dependency graphs has finished, whichever it is, and
is ready once both have finished. -/
theorem dataflow2_start_ready_only_after_both (D : World → Graph × World)
    (cfg : Configuration) (w : World) (h : w.WF) (hF : DataflowFrame D)
    (hS : DataflowStartNoIncoming D) (completed : NodePtr → Bool) :
    (completed (ExampleGraph_Create_body D cfg w).1.taskDependencyGraph2.end_ = true →
      completed (ExampleGraph_Create_body D cfg w).1.taskDependencyGraph1.end_ = false →
      (ExampleGraph_Create_body D cfg w).2.ready completed
        (ExampleGraph_Create_body D cfg w).1.dataflowGraph2.start = false) ∧
    (completed (ExampleGraph_Create_body D cfg w).1.taskDependencyGraph1.end_ = true →
      completed (ExampleGraph_Create_body D cfg w).1.taskDependencyGraph2.end_ = false →
      (ExampleGraph_Create_body D cfg w).2.ready completed
        (ExampleGraph_Create_body D cfg w).1.dataflowGraph2.start = false) ∧
    (completed (ExampleGraph_Create_body D cfg w).1.taskDependencyGraph1.end_ = true →
      completed (ExampleGraph_Create_body D cfg w).1.taskDependencyGraph2.end_ = true →
      (ExampleGraph_Create_body D cfg w).2.ready completed
        (ExampleGraph_Create_body D cfg w).1.dataflowGraph2.start = true) := by
  obtain ⟨hh, hs⟩ := ExampleGraph_Create_body_dataflow2_preds D cfg w h hF hS
  refine ⟨?_, ?_, ?_⟩ <;> intro h1 h2 <;> simp [World.ready, hh, hs, h1, h2]

/-- C6: for every `arg1`, `arg2`, `arg3`, from a well-formed state with `n`
nodes, the end node `n+4` of `CreateTaskDependencyGraph` has no hard
predecessor and exactly the soft predecessors task2 (`n+2`, payload `arg2`)
and task3 (`n+3`, payload `arg3`); so it is ready if and only if task2 or
task3 has completed, and once ready it stays ready after any further
completion event. -/
theorem C6_task_dependency_end_or_join (arg1 arg2 arg3 : Int) (w : World) (h : w.WF) :
    (CreateTaskDependencyGraph arg1 arg2 arg3 w).1.end_ = w.nodes.length + 4 ∧
    (CreateTaskDependencyGraph arg1 arg2 arg3 w).2.nodes[w.nodes.length + 2]? =
      some (Role.task arg2) ∧
    (CreateTaskDependencyGraph arg1 arg2 arg3 w).2.nodes[w.nodes.length + 3]? =
      some (Role.task arg3) ∧
    (CreateTaskDependencyGraph arg1 arg2 arg3 w).2.hardPreds
      (CreateTaskDependencyGraph arg1 arg2 arg3 w).1.end_ = [] ∧
    (CreateTaskDependencyGraph arg1 arg2 arg3 w).2.softPreds
      (CreateTaskDependencyGraph arg1 arg2 arg3 w).1.end_ =
        [w.nodes.length + 2, w.nodes.length + 3] ∧
    (∀ events : List NodePtr,
      (CreateTaskDependencyGraph arg1 arg2 arg3 w).2.ready (completedAfter events)
          (CreateTaskDependencyGraph arg1 arg2 arg3 w).1.end_ = true ↔
        w.nodes.length + 2 ∈ events ∨ w.nodes.length + 3 ∈ events) ∧
    (∀ (events : List NodePtr) (x : NodePtr),
      (CreateTaskDependencyGraph arg1 arg2 arg3 w).2.ready (completedAfter events)
          (CreateTaskDependencyGraph arg1 arg2 arg3 w).1.end_ = true →
      (CreateTaskDependencyGraph arg1 arg2 arg3 w).2.ready (completedAfter (events ++ [x]))
          (CreateTaskDependencyGraph arg1 arg2 arg3 w).1.end_ = true) := by
  rw [CreateTaskDependencyGraph_eq _ _ _ w h]
  have hh : (List.filter (fun e => decide (e.2 = w.nodes.length + 4)) w.hard) = [] :=
    h.hardPreds_fresh _ (by omega)
  have hs : (List.filter (fun e => decide (e.2 = w.nodes.length + 4)) w.soft) = [] :=
    h.softPreds_fresh _ (by omega)
  refine ⟨rfl, ?_, ?_, ?_, ?_, ?_, ?_⟩
  · rw [List.getElem?_append_right (by simp)]; simp
  · rw [List.getElem?_append_right (by simp)]; simp
  · simp [World.hardPreds, List.filter_cons, hh]
  · simp [World.softPreds, List.filter_cons, hs]
  · intro events
    simp [World.ready, World.hardPreds, World.softPreds, List.filter_cons, hh, hs,
      completedAfter]
  · intro events x
    simp [World.ready, World.hardPreds, World.softPreds, List.filter_cons, hh, hs,
      completedAfter]
    tauto

/-- Witness of C6 at `CreateTaskDependencyGraph(1, 2, 3)` from the empty
state: the end is node 4, its soft predecessors are nodes 2 and 3. -/
theorem C6_task_dependency_end_or_join_witness :
    World.empty.WF ∧
    (CreateTaskDependencyGraph 1 2 3 World.empty).2.hardPreds 4 = [] ∧
    (CreateTaskDependencyGraph 1 2 3 World.empty).2.softPreds 4 = [2, 3] ∧
    ((CreateTaskDependencyGraph 1 2 3 World.empty).2.ready (completedAfter [3]) 4 = true ↔
      2 ∈ [3] ∨ 3 ∈ [3]) := by
  have h := C6_task_dependency_end_or_join 1 2 3 World.empty World.empty_WF
  exact ⟨World.empty_WF, h.2.2.2.1, h.2.2.2.2.1, h.2.2.2.2.2.1 [3]⟩

/-! ## The optional `task7` branch -/

/-- C7: for every `condition1`, `condition2`, `condition4` (and task
arguments), from a well-formed state, the graph built with `condition7` false
is the graph built with `condition7` true plus exactly one more node, task7
with the payload of `Configuration_GetTask7Arg`, created last, and exactly the
two more edges hard(start, task7) and soft(task7, end); the boundary pair, the
other nodes and edges, and the undirected links are the same. -/
theorem C7_optional_branch_adds_task7 (condition1 : Bool) (cfg : Configuration) (w : World)
    (h : w.WF) :
    (CreateFinishingGraph condition1 { cfg with condition7 := false } w).1 =
      (CreateFinishingGraph condition1 { cfg with condition7 := true } w).1 ∧
    (CreateFinishingGraph condition1 { cfg with condition7 := false } w).2.nodes =
      (CreateFinishingGraph condition1 { cfg with condition7 := true } w).2.nodes ++
        [Role.task cfg.task7Arg] ∧
    (CreateFinishingGraph condition1 { cfg with condition7 := false } w).2.hard =
      (CreateFinishingGraph condition1 { cfg with condition7 := true } w).2.hard ++
        [((CreateFinishingGraph condition1 { cfg with condition7 := true } w).1.start,
          (CreateFinishingGraph condition1 { cfg with condition7 := true } w).2.nodes.length)] ∧
    (CreateFinishingGraph condition1 { cfg with condition7 := false } w).2.soft =
      (CreateFinishingGraph condition1 { cfg with condition7 := true } w).2.soft ++
        [((CreateFinishingGraph condition1 { cfg with condition7 := true } w).2.nodes.length,
          (CreateFinishingGraph condition1 { cfg with condition7 := true } w).1.end_)] ∧
    (CreateFinishingGraph condition1 { cfg with condition7 := false } w).2.undirected =
      (CreateFinishingGraph condition1 { cfg with condition7 := true } w).2.undirected ∧
    (CreateFinishingGraph condition1 { cfg with condition7 := false } w).2.calls =
      (CreateFinishingGraph condition1 { cfg with condition7 := true } w).2.calls ++
        [ConfigCall.GetTask7Arg] := by
  rw [CreateFinishingGraph_eq _ _ w h, CreateFinishingGraph_eq _ _ w h]
  obtain ⟨c2, c4, c7, a1, a2, a3, a4, a5, a6, a7⟩ := cfg
  cases condition1 <;> cases c2 <;> cases c4 <;> simp

/-- Witness of C7 at `condition1` true and `cfgTask1Only`, from the empty
state: task7 is node 3. -/
theorem C7_optional_branch_adds_task7_witness :
    World.empty.WF ∧
    (CreateFinishingGraph true { cfgTask1Only with condition7 := true } World.empty).2.hard =
      [(0, 2), (2, 1)] ∧
    (CreateFinishingGraph true { cfgTask1Only with condition7 := false } World.empty).2.hard =
      [(0, 2), (2, 1)] ++ [(0, 3)] ∧
    (CreateFinishingGraph true { cfgTask1Only with condition7 := false } World.empty).2.soft =
      [] ++ [(3, 1)] := by
  have h := C7_optional_branch_adds_task7 true cfgTask1Only World.empty World.empty_WF
  exact ⟨World.empty_WF, by decide, h.2.2.1, h.2.2.2.1⟩

/-! ## Duplicate registration -/

theorem Utility_LinkDirectedSoft_idem (a b : NodePtr) (w : World) :
    Utility_LinkDirectedSoft a b (Utility_LinkDirectedSoft a b w) =
      Utility_LinkDirectedSoft a b w := by
  have hm : (a, b) ∈ (Utility_LinkDirectedSoft a b w).soft := by simp
  generalize Utility_LinkDirectedSoft a b w = v at hm ⊢
  unfold Utility_LinkDirectedSoft
  rw [if_pos hm]

theorem CreateFinishingGraph_false_eq_singleRegistration (cfg : Configuration) (w : World) :
    CreateFinishingGraph false cfg w = CreateFinishingGraph_singleRegistration cfg w := by
  simp [CreateFinishingGraph, CreateFinishingGraph_singleRegistration,
    Utility_LinkDirectedSoft_idem]

/-- C8: when `condition1` is false, `CreateFinishingGraph` registers
`Utility_LinkDirectedSoft(task2, end)` twice (lines 66 and 67); from a
well-formed state with `n` nodes (task2 is node `n+2`, end node `n+1`) the
final soft edges hold the edge (task2, end) exactly once, and the state and
graph built are those built with a single registration. -/
theorem C8_duplicate_soft_registration (cfg : Configuration) (w : World) (h : w.WF) :
    (CreateFinishingGraph false cfg w).2.nodes[w.nodes.length + 2]? =
      some (Role.task cfg.task2Arg) ∧
    (CreateFinishingGraph false cfg w).1.end_ = w.nodes.length + 1 ∧
    (CreateFinishingGraph false cfg w).2.soft.count
      (w.nodes.length + 2, w.nodes.length + 1) = 1 ∧
    CreateFinishingGraph false cfg w = CreateFinishingGraph_singleRegistration cfg w := by
  refine ⟨?_, ?_, ?_, CreateFinishingGraph_false_eq_singleRegistration cfg w⟩
  · rw [CreateFinishingGraph_eq _ _ w h]
    simp only [Bool.false_and, Bool.false_eq_true, if_false, List.append_assoc]
    rw [List.getElem?_append_right (by simp)]; simp
  · rw [CreateFinishingGraph_graph]
  · rw [CreateFinishingGraph_eq _ _ w h]
    have h0 : w.soft.count (w.nodes.length + 2, w.nodes.length + 1) = 0 := by
      rw [List.count_eq_zero]
      intro hm
      exact (h.soft_fresh _ _ (Or.inl (by omega))).mp hm
    cases cfg.condition7 <;> simp [List.count_cons, h0]

/-- Witness of C8 at `cfgOptionalBranch` from the empty state: task2 is node
2, the end is node 1, and the soft edges are (2, 1) once and (4, 1). -/
theorem C8_duplicate_soft_registration_witness :
    World.empty.WF ∧
    (CreateFinishingGraph false cfgOptionalBranch World.empty).2.soft = [(2, 1), (4, 1)] ∧
    (CreateFinishingGraph false cfgOptionalBranch World.empty).2.soft.count (2, 1) = 1 ∧
    CreateFinishingGraph false cfgOptionalBranch World.empty =
      CreateFinishingGraph_singleRegistration cfgOptionalBranch World.empty := by
  have h := C8_duplicate_soft_registration cfgOptionalBranch World.empty World.empty_WF
  exact ⟨World.empty_WF, by decide, h.2.2.1, h.2.2.2⟩

/-! ## Boundary nodes at construction time -/

/-- C9: at the moment each builder returns (from a well-formed state),
for `CreateTaskDependencyGraph` with every argument triple and for
`CreateFinishingGraph` with every flag combination, no directed edge (hard or
soft) enters the returned start node and none leaves the returned end node. -/
theorem C9_boundary_nodes_at_construction (arg1 arg2 arg3 : Int) (condition1 : Bool)
    (cfg : Configuration) (w : World) (h : w.WF) :
    (∀ e ∈ (CreateTaskDependencyGraph arg1 arg2 arg3 w).2.directed,
      e.2 ≠ (CreateTaskDependencyGraph arg1 arg2 arg3 w).1.start ∧
      e.1 ≠ (CreateTaskDependencyGraph arg1 arg2 arg3 w).1.end_) ∧
    (∀ e ∈ (CreateFinishingGraph condition1 cfg w).2.directed,
      e.2 ≠ (CreateFinishingGraph condition1 cfg w).1.start ∧
      e.1 ≠ (CreateFinishingGraph condition1 cfg w).1.end_) := by
  constructor
  · rw [CreateTaskDependencyGraph_eq _ _ _ w h]
    rintro ⟨a, b⟩ he
    by_cases hmh : (a, b) ∈ w.hard
    · have hlt : a < w.nodes.length ∧ b < w.nodes.length := h (a, b) (by simp [hmh])
      simp only [NodePtr] at *
      omega
    by_cases hms : (a, b) ∈ w.soft
    · have hlt : a < w.nodes.length ∧ b < w.nodes.length := h (a, b) (by simp [hms])
      simp only [NodePtr] at *
      omega
    simp [World.directed, hmh, hms] at he
    simp only [NodePtr] at *
    omega
  · rw [CreateFinishingGraph_eq _ _ w h]
    rintro ⟨a, b⟩ he
    by_cases hmh : (a, b) ∈ w.hard
    · have hlt : a < w.nodes.length ∧ b < w.nodes.length := h (a, b) (by simp [hmh])
      simp only [NodePtr] at *
      omega
    by_cases hms : (a, b) ∈ w.soft
    · have hlt : a < w.nodes.length ∧ b < w.nodes.length := h (a, b) (by simp [hms])
      simp only [NodePtr] at *
      omega
    obtain ⟨c2, c4, c7, a1, a2, a3, a4, a5, a6, a7⟩ := cfg
    cases condition1 <;> cases c2 <;> cases c4 <;> cases c7 <;>
    simp [World.directed, hmh, hms] at he <;>
    simp only [NodePtr] at * <;>
    omega

/-- Witness of C9 at `CreateTaskDependencyGraph(1, 2, 3)` and
`CreateFinishingGraph(false)` with `cfgOptionalBranch`, from the empty state. -/
theorem C9_boundary_nodes_at_construction_witness :
    World.empty.WF ∧
    (∀ e ∈ (CreateTaskDependencyGraph 1 2 3 World.empty).2.directed, e.2 ≠ 0 ∧ e.1 ≠ 4) ∧
    (∀ e ∈ (CreateFinishingGraph false cfgOptionalBranch World.empty).2.directed,
      e.2 ≠ 0 ∧ e.1 ≠ 1) := by
  have h := C9_boundary_nodes_at_construction 1 2 3 false cfgOptionalBranch World.empty
    World.empty_WF
  exact ⟨World.empty_WF, h.1, h.2⟩

/-! ## Reachability in the assembled graph -/

theorem World.Reachable.mono {w v : World} {a b : NodePtr}
    (hsub : ∀ e ∈ w.directed, e ∈ v.directed) (h : w.Reachable a b) : v.Reachable a b :=
  Relation.ReflTransGen.mono (fun x y hxy => hsub (x, y) hxy) h

/-- No path leaves a set of nodes that is closed under the directed edges. -/
theorem World.not_reachable_of_closed (w : World) (S : List NodePtr) (a b : NodePtr)
    (ha : a ∈ S) (hb : b ∉ S) (hclosed : ∀ e ∈ w.directed, e.1 ∈ S → e.2 ∈ S) :
    ¬ w.Reachable a b := by
  intro hr
  have key : ∀ y, w.Reachable a y → y ∈ S := by
    intro y hy
    induction hy with
    | refl => exact ha
    | tail _ hxy ih => exact hclosed _ hxy ih
  exact hb (key b hr)

/-- `CreateFinishingGraph` keeps every directed edge registered before. -/
theorem CreateFinishingGraph_directed_mono (condition1 : Bool) (cfg : Configuration)
    (w : World) : ∀ e ∈ w.directed, e ∈ (CreateFinishingGraph condition1 cfg w).2.directed := by
  rintro ⟨a, b⟩ he
  obtain ⟨c2, c4, c7, a1, a2, a3, a4, a5, a6, a7⟩ := cfg
  simp only [World.directed, List.mem_append] at he
  cases condition1 <;> cases c2 <;> cases c4 <;> cases c7 <;>
  rcases he with he | he <;>
  simp [World.directed, CreateFinishingGraph, Utility_CreateStart,
    Utility_CreateTask, Utility_CreateEnd, he,
    Configuration_GetCondition2, Configuration_GetCondition4, Configuration_GetCondition7,
    Configuration_GetTask1Arg, Configuration_GetTask2Arg, Configuration_GetTask3Arg,
    Configuration_GetTask4Arg, Configuration_GetTask5Arg, Configuration_GetTask6Arg,
    Configuration_GetTask7Arg]

/-- C10, counterexample: with the sample dataflow graph (which has a directed
path from its start to its end), from the empty state, reading line 99 as
`dataflowGraph1.start` gives the entry node 10 and the exit node 15, and no
path of directed edges leads from node 10 to node 15: the only directed edge
leaving the nodes 10 and 11 of `dataflowGraph1` is (10, 11). -/
theorem C10_counterexample_dataflow1_start_isolated :
    World.empty.WF ∧ DataflowFrame DataflowGraph_sample ∧
    DataflowConnected DataflowGraph_sample ∧
    (ExampleGraph_Create DataflowName.dataflowGraph1 DataflowGraph_sample cfgPrimaryOnly
      World.empty).1 = { start := 10, end_ := 15 } ∧
    ¬ (ExampleGraph_Create DataflowName.dataflowGraph1 DataflowGraph_sample cfgPrimaryOnly
        World.empty).2.Reachable
      (ExampleGraph_Create DataflowName.dataflowGraph1 DataflowGraph_sample cfgPrimaryOnly
        World.empty).1.start
      (ExampleGraph_Create DataflowName.dataflowGraph1 DataflowGraph_sample cfgPrimaryOnly
        World.empty).1.end_ := by
  refine ⟨World.empty_WF, DataflowGraph_sample_frame, DataflowGraph_sample_connected,
    by decide, ?_⟩
  apply World.not_reachable_of_closed _ [10, 11]
  · decide
  · decide
  · decide

/-- C10 as amended: for every configuration, from a well-formed state, with a
`DataflowGraph_Create` that returns graphs having a directed path from their
own start to their own end, and reading the `dataflowGraph.start` of line 99 as
`dataflowGraph2.start`, the exit node `finishingGraph.end` of the graph
returned by `ExampleGraph_Create` is reachable from its entry node by a path of
directed edges. -/
theorem C10_exit_reachable_from_dataflow2_start (D : World → Graph × World)
    (cfg : Configuration) (w : World) (h : w.WF) (hF : DataflowFrame D)
    (hC : DataflowConnected D) :
    (ExampleGraph_Create DataflowName.dataflowGraph2 D cfg w).1 =
      { start := (ExampleGraph_Create_body D cfg w).1.dataflowGraph2.start,
        end_ := (ExampleGraph_Create_body D cfg w).1.finishingGraph.end_ } ∧
    (ExampleGraph_Create DataflowName.dataflowGraph2 D cfg w).2.Reachable
      (ExampleGraph_Create DataflowName.dataflowGraph2 D cfg w).1.start
      (ExampleGraph_Create DataflowName.dataflowGraph2 D cfg w).1.end_ := by
  refine ⟨rfl, ?_⟩
  unfold ExampleGraph_Create ExampleGraph_Create_body
  have hw1 := CreateTaskDependencyGraph_WF 1 2 3 w h
  generalize CreateTaskDependencyGraph 1 2 3 w = r at hw1 ⊢
  obtain ⟨td1, w1⟩ := r
  dsimp only at hw1 ⊢
  have hw2 := CreateTaskDependencyGraph_WF 4 5 6 w1 hw1
  generalize CreateTaskDependencyGraph 4 5 6 w1 = r at hw2 ⊢
  obtain ⟨td2, w2⟩ := r
  dsimp only at hw2 ⊢
  have hw3 := (hF w2 hw2).1
  generalize D w2 = r at hw3 ⊢
  obtain ⟨df1, w3⟩ := r
  dsimp only at hw3 ⊢
  have hc4 := hC w3 hw3
  generalize D w3 = r at hc4 ⊢
  obtain ⟨df2, w4⟩ := r
  dsimp only at hc4 ⊢
  have hm := CreateFinishingGraph_directed_mono true cfg w4
  have hr := CreateFinishingGraph_reachable true cfg w4
  generalize CreateFinishingGraph true cfg w4 = r at hm hr ⊢
  obtain ⟨fin, w5⟩ := r
  dsimp only at hm hr ⊢
  have hsub : ∀ e ∈ w5.directed,
      e ∈ (Utility_LinkDirectedHard df2.end_ fin.start
        (Utility_LinkDirectedHard td2.end_ df2.start
          (Utility_LinkDirectedSoft td1.end_ df2.start
            (Utility_LinkUndirected df1.end_ td2.start
              (Utility_LinkUndirected df1.end_ td1.start w5))))).directed := by
    intro e he
    simp only [World.directed, List.mem_append] at he
    rcases he with he | he <;> simp [World.directed, he]
  have hedge : (Utility_LinkDirectedHard df2.end_ fin.start
        (Utility_LinkDirectedHard td2.end_ df2.start
          (Utility_LinkDirectedSoft td1.end_ df2.start
            (Utility_LinkUndirected df1.end_ td2.start
              (Utility_LinkUndirected df1.end_ td1.start w5))))).Edge df2.end_ fin.start := by
    simp [World.Edge, World.directed]
  exact Relation.ReflTransGen.trans
    ((hc4.mono hm).mono hsub)
    (Relation.ReflTransGen.head hedge (hr.mono hsub))

/-- Witness of the amended C10 with the sample dataflow graph, from the empty
state: the entry `dataflowGraph2.start` is node 12, the exit node 15. -/
theorem C10_exit_reachable_from_dataflow2_start_witness :
    World.empty.WF ∧ DataflowFrame DataflowGraph_sample ∧
    DataflowConnected DataflowGraph_sample ∧
    (ExampleGraph_Create DataflowName.dataflowGraph2 DataflowGraph_sample cfgTask1Only
      World.empty).1 = { start := 12, end_ := 15 } ∧
    (ExampleGraph_Create DataflowName.dataflowGraph2 DataflowGraph_sample cfgTask1Only
      World.empty).2.Reachable 12 15 := by
  have h := C10_exit_reachable_from_dataflow2_start DataflowGraph_sample cfgTask1Only
    World.empty World.empty_WF DataflowGraph_sample_frame DataflowGraph_sample_connected
  exact ⟨World.empty_WF, DataflowGraph_sample_frame, DataflowGraph_sample_connected,
    by decide, h.2⟩

/-! ## Calls of the configuration provider -/

@[simp]
theorem calls_LinkDirectedHard (a b : NodePtr) (w : World) :
    (Utility_LinkDirectedHard a b w).calls = w.calls := by
  unfold Utility_LinkDirectedHard; split <;> rfl

@[simp]
theorem calls_LinkDirectedSoft (a b : NodePtr) (w : World) :
    (Utility_LinkDirectedSoft a b w).calls = w.calls := by
  unfold Utility_LinkDirectedSoft; split <;> rfl

/-- The nodes and the configuration calls of `CreateFinishingGraph`, from any
state. -/
theorem CreateFinishingGraph_nodes_calls (condition1 : Bool) (cfg : Configuration)
    (w : World) :
    (CreateFinishingGraph condition1 cfg w).2.nodes = w.nodes ++ ([Role.start, Role.end_] ++
      ((if condition1 && cfg.condition2 then
          [Role.task cfg.task3Arg, Role.task cfg.task6Arg]
        else if condition1 then
          Role.task cfg.task1Arg :: (if cfg.condition4 then [Role.task cfg.task4Arg] else [])
        else [Role.task cfg.task2Arg, Role.task cfg.task5Arg]) ++
      (if cfg.condition7 then [] else [Role.task cfg.task7Arg]))) ∧
    (CreateFinishingGraph condition1 cfg w).2.calls = w.calls ++
      ([ConfigCall.GetCondition2, ConfigCall.GetCondition4, ConfigCall.GetCondition7] ++
      ((if condition1 && cfg.condition2 then [ConfigCall.GetTask3Arg, ConfigCall.GetTask6Arg]
        else if condition1 then
          ConfigCall.GetTask1Arg :: (if cfg.condition4 then [ConfigCall.GetTask4Arg] else [])
        else [ConfigCall.GetTask2Arg, ConfigCall.GetTask5Arg]) ++
      (if cfg.condition7 then [] else [ConfigCall.GetTask7Arg]))) := by
  obtain ⟨c2, c4, c7, a1, a2, a3, a4, a5, a6, a7⟩ := cfg
  cases condition1 <;> cases c2 <;> cases c4 <;> cases c7 <;>
  simp [CreateFinishingGraph, Utility_CreateStart, Utility_CreateTask, Utility_CreateEnd,
    Configuration_GetCondition2, Configuration_GetCondition4, Configuration_GetCondition7,
    Configuration_GetTask1Arg, Configuration_GetTask2Arg, Configuration_GetTask3Arg,
    Configuration_GetTask4Arg, Configuration_GetTask5Arg, Configuration_GetTask6Arg,
    Configuration_GetTask7Arg]

/-- C15: in one call of `CreateFinishingGraph`, for every flag combination and
from every state, the calls it adds to the log start with
`Configuration_GetCondition2`, `Configuration_GetCondition4`,
`Configuration_GetCondition7`, each of which is called exactly once; every
task-argument accessor is called at most once; and the payloads of the task
nodes created are, in order, exactly the answers of the task-argument
accessor calls made, so an accessor is called only for a task node that is
created. -/
theorem C15_configuration_read_once (condition1 : Bool) (cfg : Configuration) (w : World) :
    (CreateFinishingGraph condition1 cfg w).2.calls =
      w.calls ++ (CreateFinishingGraph condition1 cfg w).2.calls.drop w.calls.length ∧
    ((CreateFinishingGraph condition1 cfg w).2.calls.drop w.calls.length).take 3 =
      [ConfigCall.GetCondition2, ConfigCall.GetCondition4, ConfigCall.GetCondition7] ∧
    ((CreateFinishingGraph condition1 cfg w).2.calls.drop w.calls.length).count
      ConfigCall.GetCondition2 = 1 ∧
    ((CreateFinishingGraph condition1 cfg w).2.calls.drop w.calls.length).count
      ConfigCall.GetCondition4 = 1 ∧
    ((CreateFinishingGraph condition1 cfg w).2.calls.drop w.calls.length).count
      ConfigCall.GetCondition7 = 1 ∧
    (∀ c : ConfigCall,
      ((CreateFinishingGraph condition1 cfg w).2.calls.drop w.calls.length).count c ≤ 1) ∧
    (CreateFinishingGraph condition1 cfg w).2.nodes =
      w.nodes ++ (CreateFinishingGraph condition1 cfg w).2.nodes.drop w.nodes.length ∧
    ((CreateFinishingGraph condition1 cfg w).2.nodes.drop w.nodes.length).filterMap
        Role.payload =
      ((CreateFinishingGraph condition1 cfg w).2.calls.drop w.calls.length).filterMap
        cfg.taskArg := by
  obtain ⟨hn, hc⟩ := CreateFinishingGraph_nodes_calls condition1 cfg w
  rw [hn, hc, List.drop_left, List.drop_left]
  obtain ⟨c2, c4, c7, a1, a2, a3, a4, a5, a6, a7⟩ := cfg
  refine ⟨rfl, rfl, ?_, ?_, ?_, ?_, rfl, ?_⟩
  · cases condition1 <;> cases c2 <;> cases c4 <;> cases c7 <;> simp [List.count_cons]
  · cases condition1 <;> cases c2 <;> cases c4 <;> cases c7 <;> simp [List.count_cons]
  · cases condition1 <;> cases c2 <;> cases c4 <;> cases c7 <;> simp [List.count_cons]
  · intro c
    cases condition1 <;> cases c2 <;> cases c4 <;> cases c7 <;> cases c <;>
      simp [List.count_cons]
  · cases condition1 <;> cases c2 <;> cases c4 <;> cases c7 <;>
      simp [Role.payload, Configuration.taskArg]

/-! ## Strict sequencing -/

@[simp]
theorem undirected_LinkDirectedHard (a b : NodePtr) (w : World) :
    (Utility_LinkDirectedHard a b w).undirected = w.undirected := by
  unfold Utility_LinkDirectedHard; split <;> rfl

@[simp]
theorem undirected_LinkDirectedSoft (a b : NodePtr) (w : World) :
    (Utility_LinkDirectedSoft a b w).undirected = w.undirected := by
  unfold Utility_LinkDirectedSoft; split <;> rfl

theorem World.mem_hardPreds (w : World) (a n : NodePtr) :
    a ∈ w.hardPreds n ↔ (a, n) ∈ w.hard := by
  simp only [World.hardPreds, List.mem_map, List.mem_filter, decide_eq_true_eq]
  constructor
  · rintro ⟨⟨x, y⟩, ⟨hm, hy⟩, hx⟩
    simp only at hy hx
    subst hy; subst hx; exact hm
  · intro hm
    exact ⟨(a, n), ⟨hm, rfl⟩, rfl⟩

theorem World.mem_softPreds (w : World) (a n : NodePtr) :
    a ∈ w.softPreds n ↔ (a, n) ∈ w.soft := by
  simp only [World.softPreds, List.mem_map, List.mem_filter, decide_eq_true_eq]
  constructor
  · rintro ⟨⟨x, y⟩, ⟨hm, hy⟩, hx⟩
    simp only at hy hx
    subst hy; subst hx; exact hm
  · intro hm
    exact ⟨(a, n), ⟨hm, rfl⟩, rfl⟩

/-- Readiness depends only on which hard and soft edges are registered. -/
theorem World.ready_congr {w v : World} (hh : ∀ e, e ∈ w.hard ↔ e ∈ v.hard)
    (hs : ∀ e, e ∈ w.soft ↔ e ∈ v.soft) (completed : NodePtr → Bool) (n : NodePtr) :
    w.ready completed n = v.ready completed n := by
  rw [Bool.eq_iff_iff]
  simp only [World.ready, Bool.and_eq_true, Bool.or_eq_true, List.all_eq_true,
    List.any_eq_true, List.isEmpty_iff, List.eq_nil_iff_forall_not_mem,
    World.mem_hardPreds, World.mem_softPreds, hh, hs]

/-- Reachability depends only on which hard and soft edges are registered. -/
theorem World.reachable_congr {w v : World} (hh : ∀ e, e ∈ w.hard ↔ e ∈ v.hard)
    (hs : ∀ e, e ∈ w.soft ↔ e ∈ v.soft) (a b : NodePtr) :
    w.Reachable a b ↔ v.Reachable a b := by
  constructor
  · apply World.Reachable.mono
    intro e he
    simp only [World.directed, List.mem_append] at he ⊢
    rw [← hh, ← hs]; exact he
  · apply World.Reachable.mono
    intro e he
    simp only [World.directed, List.mem_append] at he ⊢
    rw [hh, hs]; exact he

/-- C16: for any three graphs `g1`, `g2`, `g3` (node-disjoint or not) and any
state, sequencing `g1` with `g2` first and the result with `g3`, which
registers hard(g1.end, g2.start) and then hard(g2.end, g3.start), and
sequencing `g2` with `g3` first and `g1` with the result, which registers the
two links in the opposite order, give the same boundary pair (g1.start,
g3.end), the same set of hard edges, the same soft and undirected edges and
nodes, the same directed reachability relation and the same readiness of
every node under every completion state. -/
theorem C16_strict_sequencing_associative (g1 g2 g3 : Graph) (w : World) :
    (StrictSequence (StrictSequence g1 g2 w).1 g3 (StrictSequence g1 g2 w).2).2 =
      Utility_LinkDirectedHard g2.end_ g3.start
        (Utility_LinkDirectedHard g1.end_ g2.start w) ∧
    (StrictSequence g1 (StrictSequence g2 g3 w).1 (StrictSequence g2 g3 w).2).2 =
      Utility_LinkDirectedHard g1.end_ g2.start
        (Utility_LinkDirectedHard g2.end_ g3.start w) ∧
    (StrictSequence (StrictSequence g1 g2 w).1 g3 (StrictSequence g1 g2 w).2).1 =
      { start := g1.start, end_ := g3.end_ } ∧
    (StrictSequence g1 (StrictSequence g2 g3 w).1 (StrictSequence g2 g3 w).2).1 =
      { start := g1.start, end_ := g3.end_ } ∧
    (∀ e : NodePtr × NodePtr,
      e ∈ (StrictSequence (StrictSequence g1 g2 w).1 g3 (StrictSequence g1 g2 w).2).2.hard ↔
      e ∈ (StrictSequence g1 (StrictSequence g2 g3 w).1 (StrictSequence g2 g3 w).2).2.hard) ∧
    (StrictSequence (StrictSequence g1 g2 w).1 g3 (StrictSequence g1 g2 w).2).2.soft =
      (StrictSequence g1 (StrictSequence g2 g3 w).1 (StrictSequence g2 g3 w).2).2.soft ∧
    (StrictSequence (StrictSequence g1 g2 w).1 g3 (StrictSequence g1 g2 w).2).2.undirected =
      (StrictSequence g1 (StrictSequence g2 g3 w).1 (StrictSequence g2 g3 w).2).2.undirected ∧
    (StrictSequence (StrictSequence g1 g2 w).1 g3 (StrictSequence g1 g2 w).2).2.nodes =
      (StrictSequence g1 (StrictSequence g2 g3 w).1 (StrictSequence g2 g3 w).2).2.nodes ∧
    (∀ a b : NodePtr,
      (StrictSequence (StrictSequence g1 g2 w).1 g3 (StrictSequence g1 g2 w).2).2.Reachable a b ↔
      (StrictSequence g1 (StrictSequence g2 g3 w).1 (StrictSequence g2 g3 w).2).2.Reachable
        a b) ∧
    (∀ (completed : NodePtr → Bool) (n : NodePtr),
      (StrictSequence (StrictSequence g1 g2 w).1 g3 (StrictSequence g1 g2 w).2).2.ready
        completed n =
      (StrictSequence g1 (StrictSequence g2 g3 w).1 (StrictSequence g2 g3 w).2).2.ready
        completed n) := by
  have hh : ∀ e : NodePtr × NodePtr,
      e ∈ (StrictSequence (StrictSequence g1 g2 w).1 g3 (StrictSequence g1 g2 w).2).2.hard ↔
      e ∈ (StrictSequence g1 (StrictSequence g2 g3 w).1
        (StrictSequence g2 g3 w).2).2.hard := by
    intro e
    simp only [StrictSequence, mem_hard_LinkDirectedHard]
    tauto
  have hs : ∀ e : NodePtr × NodePtr,
      e ∈ (StrictSequence (StrictSequence g1 g2 w).1 g3 (StrictSequence g1 g2 w).2).2.soft ↔
      e ∈ (StrictSequence g1 (StrictSequence g2 g3 w).1
        (StrictSequence g2 g3 w).2).2.soft := by
    intro e
    simp [StrictSequence]
  refine ⟨rfl, rfl, rfl, rfl, hh, ?_, ?_, ?_, ?_, ?_⟩
  · simp [StrictSequence]
  · simp [StrictSequence]
  · simp [StrictSequence]
  · exact World.reachable_congr hh hs
  · exact World.ready_congr hh hs

/-! ## The influence of `condition4` -/

theorem World.WF.map_shiftEdge_hard {w : World} (h : w.WF) (k : Nat)
    (hk : w.nodes.length ≤ k) : w.hard.map (shiftEdge k) = w.hard := by
  conv_rhs => rw [← List.map_id w.hard]
  apply List.map_congr_left
  rintro ⟨a, b⟩ hm
  have hlt : a < w.nodes.length ∧ b < w.nodes.length := h (a, b) (by simp [hm])
  simp only [NodePtr] at *
  have ha : ¬ k ≤ a := by omega
  have hb : ¬ k ≤ b := by omega
  simp [shiftEdge, shiftFrom, ha, hb]

theorem World.WF.map_shiftEdge_soft {w : World} (h : w.WF) (k : Nat)
    (hk : w.nodes.length ≤ k) : w.soft.map (shiftEdge k) = w.soft := by
  conv_rhs => rw [← List.map_id w.soft]
  apply List.map_congr_left
  rintro ⟨a, b⟩ hm
  have hlt : a < w.nodes.length ∧ b < w.nodes.length := h (a, b) (by simp [hm])
  simp only [NodePtr] at *
  have ha : ¬ k ≤ a := by omega
  have hb : ¬ k ≤ b := by omega
  simp [shiftEdge, shiftFrom, ha, hb]

/-- C18: `condition4` influences the finishing graph only in the branch
`condition1 && !condition2` (from a well-formed state).  Whenever `condition1` is false or `condition2`
is true, the graph and the whole state built for `condition4` true and for
`condition4` false are identical.  When `condition1` is
true and `condition2` false, from a well-formed state with `n` nodes (start
`n`, end `n+1`, task1 `n+2`), `condition4` true creates one more node, task4 at
position `n+3` (the task7 node created after it, if any, moves up by one), and
registers the two more hard edges (task1, task4) and (task4, end), and nothing
else changes; the end then has exactly the hard predecessors task4 and task1
and is ready only if both have completed. -/
theorem C18_condition4_influence (condition1 : Bool) (cfg : Configuration) (w : World)
    (h : w.WF) :
    ((condition1 = false ∨ cfg.condition2 = true) →
      CreateFinishingGraph condition1 { cfg with condition4 := true } w =
        CreateFinishingGraph condition1 { cfg with condition4 := false } w) ∧
    ((condition1 = true ∧ cfg.condition2 = false) →
      (CreateFinishingGraph condition1 { cfg with condition4 := true } w).1 =
        (CreateFinishingGraph condition1 { cfg with condition4 := false } w).1 ∧
      (CreateFinishingGraph condition1 { cfg with condition4 := true } w).2.nodes =
        (CreateFinishingGraph condition1 { cfg with condition4 := false } w).2.nodes.take
            (w.nodes.length + 3) ++ [Role.task cfg.task4Arg] ++
          (CreateFinishingGraph condition1 { cfg with condition4 := false } w).2.nodes.drop
            (w.nodes.length + 3) ∧
      (CreateFinishingGraph condition1 { cfg with condition4 := true } w).2.nodes[
          w.nodes.length + 2]? = some (Role.task cfg.task1Arg) ∧
      (∀ e : NodePtr × NodePtr,
        e ∈ (CreateFinishingGraph condition1 { cfg with condition4 := true } w).2.hard ↔
          e ∈ ((CreateFinishingGraph condition1 { cfg with condition4 := false } w).2.hard.map
              (shiftEdge (w.nodes.length + 3))) ∨
          e = (w.nodes.length + 2, w.nodes.length + 3) ∨
          e = (w.nodes.length + 3, w.nodes.length + 1)) ∧
      (CreateFinishingGraph condition1 { cfg with condition4 := true } w).2.hard.length =
        (CreateFinishingGraph condition1 { cfg with condition4 := false } w).2.hard.length + 2 ∧
      (CreateFinishingGraph condition1 { cfg with condition4 := true } w).2.soft =
        (CreateFinishingGraph condition1 { cfg with condition4 := false } w).2.soft.map
          (shiftEdge (w.nodes.length + 3)) ∧
      (CreateFinishingGraph condition1 { cfg with condition4 := true } w).2.undirected =
        (CreateFinishingGraph condition1 { cfg with condition4 := false } w).2.undirected ∧
      (CreateFinishingGraph condition1 { cfg with condition4 := true } w).2.hardPreds
          (w.nodes.length + 1) = [w.nodes.length + 3, w.nodes.length + 2] ∧
      (CreateFinishingGraph condition1 { cfg with condition4 := false } w).2.hardPreds
          (w.nodes.length + 1) = [w.nodes.length + 2] ∧
      (∀ completed : NodePtr → Bool,
        (CreateFinishingGraph condition1 { cfg with condition4 := true } w).2.ready completed
            (w.nodes.length + 1) = true →
          completed (w.nodes.length + 2) = true ∧ completed (w.nodes.length + 3) = true)) := by
  have hsh := h.map_shiftEdge_hard (w.nodes.length + 3) (by omega)
  have hss := h.map_shiftEdge_soft (w.nodes.length + 3) (by omega)
  have hfh := h.hardPreds_fresh (w.nodes.length + 1) (by omega)
  rw [CreateFinishingGraph_eq _ _ w h, CreateFinishingGraph_eq _ _ w h]
  obtain ⟨c2, c4, c7, a1, a2, a3, a4, a5, a6, a7⟩ := cfg
  constructor
  · rintro (h1 | h2)
    · subst h1; simp
    · simp only at h2; subst h2; cases condition1 <;> simp
  · rintro ⟨h1, h2⟩
    simp only at h2
    subst h1; subst h2
    refine ⟨rfl, ?_, ?_, ?_, ?_, ?_, ?_, ?_, ?_, ?_⟩
    · cases c7 <;> simp [List.take_append, List.drop_append]
    · cases c7 <;> simp <;> simp [List.getElem_append_right]
    · intro e
      cases c7 <;> simp [hsh, shiftEdge, shiftFrom] <;> tauto
    · cases c7 <;> simp
    · cases c7 <;> simp [hss, shiftEdge, shiftFrom]
    · simp
    · cases c7 <;> simp [World.hardPreds, List.filter_cons, hfh]
    · cases c7 <;> simp [World.hardPreds, List.filter_cons, hfh]
    · intro completed
      cases c7 <;> simp [World.ready, World.hardPreds, List.filter_cons, hfh] <;> tauto

/-- Witness of C18 from the empty state: with `condition1` false the two
values of `condition4` build the same state; with `condition1` true and
`cfgTask1Only` (`condition2` false), `condition4` true gives the end (node 1)
the hard predecessors task4 (node 3) and task1 (node 2). -/
theorem C18_condition4_influence_witness :
    World.empty.WF ∧
    CreateFinishingGraph false { cfgOptionalBranch with condition4 := true } World.empty =
      CreateFinishingGraph false { cfgOptionalBranch with condition4 := false } World.empty ∧
    (CreateFinishingGraph true { cfgTask1Only with condition4 := true } World.empty).2.hardPreds
      1 = [3, 2] ∧
    (CreateFinishingGraph true { cfgTask1Only with condition4 := false } World.empty).2.hardPreds
      1 = [2] :=
  ⟨World.empty_WF,
    (C18_condition4_influence false cfgOptionalBranch World.empty World.empty_WF).1
      (Or.inl rfl),
    ((C18_condition4_influence true cfgTask1Only World.empty World.empty_WF).2
      ⟨rfl, rfl⟩).2.2.2.2.2.2.2.1,
    ((C18_condition4_influence true cfgTask1Only World.empty World.empty_WF).2
      ⟨rfl, rfl⟩).2.2.2.2.2.2.2.2.1⟩

/-! ## Edges and the nodes between start and end -/

/-- A path of at most two edges, through `m` when it has two. -/
theorem World.reachable_via (w : World) (a m b : NodePtr)
    (h : a = b ∨ w.Edge a b ∨ (w.Edge a m ∧ w.Edge m b)) : w.Reachable a b := by
  rcases h with h | h | ⟨h1, h2⟩
  · subst h; exact Relation.ReflTransGen.refl
  · exact Relation.ReflTransGen.single h
  · exact Relation.ReflTransGen.head h1 (Relation.ReflTransGen.single h2)

/-- C14, counterexample: with `condition1` and `condition2` true (and
`condition7` true), from the empty state, the builder registers the hard edge
(2, 3) from task3 to task6, and no directed path leads from task6 (node 3) to
the returned end (node 1): task6 lies on no path from start to end. -/
theorem C14_counterexample_task6_off_path :
    (CreateFinishingGraph true cfgPrimaryOnly World.empty).1 = { start := 0, end_ := 1 } ∧
    (CreateFinishingGraph true cfgPrimaryOnly World.empty).2.nodes[3]? =
      some (Role.task cfgPrimaryOnly.task6Arg) ∧
    (2, 3) ∈ (CreateFinishingGraph true cfgPrimaryOnly World.empty).2.directed ∧
    (2, 3) ∉ World.empty.directed ∧
    ¬ (CreateFinishingGraph true cfgPrimaryOnly World.empty).2.OnPath
        (CreateFinishingGraph true cfgPrimaryOnly World.empty).1 3 := by
  refine ⟨by decide, by decide, by decide, by decide, ?_⟩
  rintro ⟨-, h⟩
  revert h
  apply World.not_reachable_of_closed _ [3]
  · decide
  · decide
  · decide

theorem World.onPath_pair (w : World) (g : Graph) (L : List NodePtr) (a b : NodePtr)
    (hab : a ∈ L ∧ b ∈ L) (hL : ∀ x ∈ L, w.OnPath g x) : w.OnPath g a ∧ w.OnPath g b :=
  ⟨hL a hab.1, hL b hab.2⟩

/-- C14 as amended: for `condition1` true and every `condition4` and
`condition7`, from a well-formed state with `n` nodes: when `condition2` is
false, each edge registered by `CreateFinishingGraph` has both endpoints among
the nodes that lie on some directed path from the returned start to the
returned end; when `condition2` is true, each registered edge other than the
hard edge (task3, task6) has, and task6 (node `n+3`) is reachable from the
start but no edge leaves it, so it lies on no path to the end. -/
theorem C14_edges_between_start_and_end (cfg : Configuration) (w : World) (h : w.WF) :
    (cfg.condition2 = false →
      ∀ e ∈ (CreateFinishingGraph true cfg w).2.directed, e ∉ w.directed →
        (CreateFinishingGraph true cfg w).2.OnPath (CreateFinishingGraph true cfg w).1 e.1 ∧
        (CreateFinishingGraph true cfg w).2.OnPath (CreateFinishingGraph true cfg w).1 e.2) ∧
    (cfg.condition2 = true →
      (∀ e ∈ (CreateFinishingGraph true cfg w).2.directed, e ∉ w.directed →
        e ≠ (w.nodes.length + 2, w.nodes.length + 3) →
        (CreateFinishingGraph true cfg w).2.OnPath (CreateFinishingGraph true cfg w).1 e.1 ∧
        (CreateFinishingGraph true cfg w).2.OnPath (CreateFinishingGraph true cfg w).1 e.2) ∧
      (w.nodes.length + 2, w.nodes.length + 3) ∈ (CreateFinishingGraph true cfg w).2.hard ∧
      (CreateFinishingGraph true cfg w).2.nodes[w.nodes.length + 3]? =
        some (Role.task cfg.task6Arg) ∧
      (CreateFinishingGraph true cfg w).2.Reachable (CreateFinishingGraph true cfg w).1.start
        (w.nodes.length + 3) ∧
      (∀ e ∈ (CreateFinishingGraph true cfg w).2.directed, e.1 ≠ w.nodes.length + 3) ∧
      ¬ (CreateFinishingGraph true cfg w).2.Reachable (w.nodes.length + 3)
        (CreateFinishingGraph true cfg w).1.end_) := by
  rw [CreateFinishingGraph_eq _ _ w h]
  obtain ⟨c2, c4, c7, a1, a2, a3, a4, a5, a6, a7⟩ := cfg
  constructor
  · intro h2
    simp only at h2
    subst h2
    rintro ⟨a, b⟩ he hne
    have hmh : (a, b) ∉ w.hard := fun hm => hne (by simp [World.directed, hm])
    have hms : (a, b) ∉ w.soft := fun hm => hne (by simp [World.directed, hm])
    cases c4 <;> cases c7
    · refine World.onPath_pair _ _
        [w.nodes.length, w.nodes.length + 1, w.nodes.length + 2, w.nodes.length + 3] a b ?_ ?_
      · simp [World.directed, hmh, hms] at he
        simp only [NodePtr] at *
        simp
        omega
      · simp only [List.forall_mem_cons, World.OnPath]
        and_intros
        all_goals first
          | (intro x hx; exact absurd hx (List.not_mem_nil x))
          | (apply World.reachable_via _ _ (w.nodes.length + 2)
             simp [World.Edge, World.directed])
    · refine World.onPath_pair _ _
        [w.nodes.length, w.nodes.length + 1, w.nodes.length + 2] a b ?_ ?_
      · simp [World.directed, hmh, hms] at he
        simp only [NodePtr] at *
        simp
        omega
      · simp only [List.forall_mem_cons, World.OnPath]
        and_intros
        all_goals first
          | (intro x hx; exact absurd hx (List.not_mem_nil x))
          | (apply World.reachable_via _ _ (w.nodes.length + 2)
             simp [World.Edge, World.directed])
    · refine World.onPath_pair _ _
        [w.nodes.length, w.nodes.length + 1, w.nodes.length + 2, w.nodes.length + 3, w.nodes.length + 4] a b ?_ ?_
      · simp [World.directed, hmh, hms] at he
        simp only [NodePtr] at *
        simp
        omega
      · simp only [List.forall_mem_cons, World.OnPath]
        and_intros
        all_goals first
          | (intro x hx; exact absurd hx (List.not_mem_nil x))
          | (apply World.reachable_via _ _ (w.nodes.length + 2)
             simp [World.Edge, World.directed])
    · refine World.onPath_pair _ _
        [w.nodes.length, w.nodes.length + 1, w.nodes.length + 2, w.nodes.length + 3] a b ?_ ?_
      · simp [World.directed, hmh, hms] at he
        simp only [NodePtr] at *
        simp
        omega
      · simp only [List.forall_mem_cons, World.OnPath]
        and_intros
        all_goals first
          | (intro x hx; exact absurd hx (List.not_mem_nil x))
          | (apply World.reachable_via _ _ (w.nodes.length + 2)
             simp [World.Edge, World.directed])
  · intro h2
    simp only at h2
    subst h2
    refine ⟨?_, ?_, ?_, ?_, ?_, ?_⟩
    · rintro ⟨a, b⟩ he hne hne2
      have hmh : (a, b) ∉ w.hard := fun hm => hne (by simp [World.directed, hm])
      have hms : (a, b) ∉ w.soft := fun hm => hne (by simp [World.directed, hm])
      have hne3 : ¬ (a = w.nodes.length + 2 ∧ b = w.nodes.length + 3) := by
        rintro ⟨ha, hb⟩
        exact hne2 (by rw [ha, hb])
      cases c7
      · refine World.onPath_pair _ _
          [w.nodes.length, w.nodes.length + 1, w.nodes.length + 2, w.nodes.length + 4] a b ?_ ?_
        · simp [World.directed, hmh, hms] at he
          simp only [NodePtr] at *
          simp
          omega
        · simp only [List.forall_mem_cons, World.OnPath]
          and_intros
          all_goals first
            | (intro x hx; exact absurd hx (List.not_mem_nil x))
            | (apply World.reachable_via _ _ (w.nodes.length + 2)
               simp [World.Edge, World.directed])
      · refine World.onPath_pair _ _
          [w.nodes.length, w.nodes.length + 1, w.nodes.length + 2] a b ?_ ?_
        · simp [World.directed, hmh, hms] at he
          simp only [NodePtr] at *
          simp
          omega
        · simp only [List.forall_mem_cons, World.OnPath]
          and_intros
          all_goals first
            | (intro x hx; exact absurd hx (List.not_mem_nil x))
            | (apply World.reachable_via _ _ (w.nodes.length + 2)
               simp [World.Edge, World.directed])

    · cases c7 <;> simp
    · cases c7 <;> simp <;> simp [List.getElem_append_right]
    · apply World.reachable_via _ _ (w.nodes.length + 2)
      cases c7 <;> simp [World.Edge, World.directed]
    · rintro ⟨a, b⟩ he
      by_cases hmh : (a, b) ∈ w.hard
      · have hlt : a < w.nodes.length ∧ b < w.nodes.length := h (a, b) (by simp [hmh])
        simp only [NodePtr] at *
        omega
      by_cases hms : (a, b) ∈ w.soft
      · have hlt : a < w.nodes.length ∧ b < w.nodes.length := h (a, b) (by simp [hms])
        simp only [NodePtr] at *
        omega
      cases c7 <;>
      simp [World.directed, hmh, hms] at he <;>
      simp only [NodePtr] at * <;>
      omega
    · apply World.not_reachable_of_closed _ [w.nodes.length + 3]
      · simp
      · simp
      · rintro ⟨a, b⟩ he h1
        exfalso
        simp only [List.mem_singleton] at h1
        by_cases hmh : (a, b) ∈ w.hard
        · have hlt : a < w.nodes.length ∧ b < w.nodes.length := h (a, b) (by simp [hmh])
          simp only [NodePtr] at *
          omega
        by_cases hms : (a, b) ∈ w.soft
        · have hlt : a < w.nodes.length ∧ b < w.nodes.length := h (a, b) (by simp [hms])
          simp only [NodePtr] at *
          omega
        cases c7 <;>
        simp [World.directed, hmh, hms] at he <;>
        simp only [NodePtr] at * <;>
        omega

/-- Witness of the amended C14 from the empty state: with `cfgTask1Only`
(`condition2` false) both endpoints of the registered edge (0, 2) lie on a path
from start 0 to end 1; with `cfgOptionalBranch` (`condition2` true) both
endpoints of the registered soft edge (4, 1) do. -/
theorem C14_edges_between_start_and_end_witness :
    World.empty.WF ∧ cfgTask1Only.condition2 = false ∧
    ((CreateFinishingGraph true cfgTask1Only World.empty).2.OnPath
        (CreateFinishingGraph true cfgTask1Only World.empty).1 0 ∧
      (CreateFinishingGraph true cfgTask1Only World.empty).2.OnPath
        (CreateFinishingGraph true cfgTask1Only World.empty).1 2) ∧
    cfgOptionalBranch.condition2 = true ∧
    ((CreateFinishingGraph true cfgOptionalBranch World.empty).2.OnPath
        (CreateFinishingGraph true cfgOptionalBranch World.empty).1 4 ∧
      (CreateFinishingGraph true cfgOptionalBranch World.empty).2.OnPath
        (CreateFinishingGraph true cfgOptionalBranch World.empty).1 1) :=
  ⟨World.empty_WF, rfl,
    (C14_edges_between_start_and_end cfgTask1Only World.empty World.empty_WF).1 rfl (0, 2)
      (by decide) (by decide),
    rfl,
    ((C14_edges_between_start_and_end cfgOptionalBranch World.empty World.empty_WF).2 rfl).1
      (4, 1) (by decide) (by decide) (by decide)⟩

/-! ## The stages of `ExampleGraph_Create` -/

/-- The intermediate states of `ExampleGraph_Create`, from a well-formed state
with `n` nodes: `w2` after the two task dependency graphs (lines 83-84), `w3`
and `w4` after the two dataflow graphs (lines 85-86); the finishing graph is
built on `w4` and the five links of lines 90-97 are registered last. -/
theorem ExampleGraph_Create_body_stages (D : World → Graph × World) (cfg : Configuration)
    (w : World) (h : w.WF) (hF : DataflowFrame D) :
    ∃ (w2 w3 w4 : World) (df1 df2 : Graph),
      w2.WF ∧ w3.WF ∧ w4.WF ∧
      w2.nodes = w.nodes ++
        [Role.start, Role.task 1, Role.task 2, Role.task 3, Role.end_,
         Role.start, Role.task 4, Role.task 5, Role.task 6, Role.end_] ∧
      w2.hard = w.hard ++
        [(w.nodes.length, w.nodes.length + 1), (w.nodes.length + 1, w.nodes.length + 2),
         (w.nodes.length + 1, w.nodes.length + 3), (w.nodes.length + 5, w.nodes.length + 6),
         (w.nodes.length + 6, w.nodes.length + 7), (w.nodes.length + 6, w.nodes.length + 8)] ∧
      w2.soft = w.soft ++
        [(w.nodes.length + 2, w.nodes.length + 4), (w.nodes.length + 3, w.nodes.length + 4),
         (w.nodes.length + 7, w.nodes.length + 9), (w.nodes.length + 8, w.nodes.length + 9)] ∧
      w2.undirected = w.undirected ∧ w2.calls = w.calls ∧
      D w2 = (df1, w3) ∧ D w3 = (df2, w4) ∧
      (ExampleGraph_Create_body D cfg w).1 =
        { taskDependencyGraph1 := { start := w.nodes.length, end_ := w.nodes.length + 4 },
          taskDependencyGraph2 := { start := w.nodes.length + 5, end_ := w.nodes.length + 9 },
          dataflowGraph1 := df1,
          dataflowGraph2 := df2,
          finishingGraph := { start := w4.nodes.length, end_ := w4.nodes.length + 1 } } ∧
      (ExampleGraph_Create_body D cfg w).2 =
        Utility_LinkDirectedHard df2.end_ w4.nodes.length
          (Utility_LinkDirectedHard (w.nodes.length + 9) df2.start
            (Utility_LinkDirectedSoft (w.nodes.length + 4) df2.start
              (Utility_LinkUndirected df1.end_ (w.nodes.length + 5)
                (Utility_LinkUndirected df1.end_ w.nodes.length
                  (CreateFinishingGraph true cfg w4).2)))) := by
  unfold ExampleGraph_Create_body
  have hw1 := CreateTaskDependencyGraph_WF 1 2 3 w h
  rw [CreateTaskDependencyGraph_eq 1 2 3 w h] at hw1 ⊢
  dsimp only at hw1 ⊢
  have hw2 := CreateTaskDependencyGraph_WF 4 5 6 _ hw1
  rw [CreateTaskDependencyGraph_eq 4 5 6 _ hw1] at hw2 ⊢
  dsimp only at hw2 ⊢
  have hw3 := (hF _ hw2).1
  generalize hD1 : D _ = r3 at hw3 ⊢
  obtain ⟨df1, w3⟩ := r3
  dsimp only at hw3 ⊢
  have hw4 := (hF w3 hw3).1
  generalize hD2 : D w3 = r4 at hw4 ⊢
  obtain ⟨df2, w4⟩ := r4
  dsimp only at hw4 ⊢
  refine ⟨_, w3, w4, df1, df2, hw2, hw3, hw4, ?_, ?_, ?_, rfl, rfl, hD1, hD2, ?_, ?_⟩
  · simp
  · simp [Nat.add_assoc]
  · simp [Nat.add_assoc]
  · have hg := CreateFinishingGraph_graph true cfg w4
    generalize CreateFinishingGraph true cfg w4 = r5 at hg ⊢
    obtain ⟨fin, w5⟩ := r5
    dsimp only at hg ⊢
    subst hg
    simp [Nat.add_assoc]
  · have hg := CreateFinishingGraph_graph true cfg w4
    generalize CreateFinishingGraph true cfg w4 = r5 at hg ⊢
    obtain ⟨fin, w5⟩ := r5
    dsimp only at hg ⊢
    subst hg
    simp [Nat.add_assoc]

@[simp]
theorem nodes_LinkUndirected (a b : NodePtr) (w : World) :
    (Utility_LinkUndirected a b w).nodes = w.nodes := rfl

@[simp]
theorem calls_LinkUndirected (a b : NodePtr) (w : World) :
    (Utility_LinkUndirected a b w).calls = w.calls := rfl

theorem DataflowGraph_sample_noConfigCalls : DataflowNoConfigCalls DataflowGraph_sample := by
  intro w
  simp [DataflowGraph_sample, Utility_CreateStart, Utility_CreateEnd]

/-! ## The finishing graph inside `ExampleGraph_Create` -/

/-- C19: `ExampleGraph_Create` calls `CreateFinishingGraph(true)`, so for every
configuration (from a well-formed state, with a `DataflowGraph_Create` that
makes no configuration call) the finishing graph holds the nodes of the
`condition1`-true branches only: start, end, then task3 and task6 when
`condition2` holds and task1 (and task4 when `condition4` holds) otherwise,
then task7 when `condition7` is false; the configuration calls made are those
of these nodes, so `Configuration_GetTask2Arg` and `Configuration_GetTask5Arg`
are never called; and the final end node has the hard predecessor task3 when
`condition2` holds and task1 (after task4 when `condition4` holds) otherwise. -/
theorem C19_finishing_graph_condition1_true (D : World → Graph × World)
    (cfg : Configuration) (w : World) (h : w.WF) (hF : DataflowFrame D)
    (hN : DataflowNoConfigCalls D) :
    (ExampleGraph_Create_body D cfg w).1.finishingGraph.end_ =
      (ExampleGraph_Create_body D cfg w).1.finishingGraph.start + 1 ∧
    (ExampleGraph_Create_body D cfg w).2.nodes.drop
        (ExampleGraph_Create_body D cfg w).1.finishingGraph.start =
      [Role.start, Role.end_] ++
        (if cfg.condition2 then [Role.task cfg.task3Arg, Role.task cfg.task6Arg]
         else Role.task cfg.task1Arg ::
           (if cfg.condition4 then [Role.task cfg.task4Arg] else [])) ++
        (if cfg.condition7 then [] else [Role.task cfg.task7Arg]) ∧
    (ExampleGraph_Create_body D cfg w).2.calls = w.calls ++
      ([ConfigCall.GetCondition2, ConfigCall.GetCondition4, ConfigCall.GetCondition7] ++
        (if cfg.condition2 then [ConfigCall.GetTask3Arg, ConfigCall.GetTask6Arg]
         else ConfigCall.GetTask1Arg ::
           (if cfg.condition4 then [ConfigCall.GetTask4Arg] else [])) ++
        (if cfg.condition7 then [] else [ConfigCall.GetTask7Arg])) ∧
    ConfigCall.GetTask2Arg ∉
      (ExampleGraph_Create_body D cfg w).2.calls.drop w.calls.length ∧
    ConfigCall.GetTask5Arg ∉
      (ExampleGraph_Create_body D cfg w).2.calls.drop w.calls.length ∧
    (ExampleGraph_Create_body D cfg w).2.hardPreds
        (ExampleGraph_Create_body D cfg w).1.finishingGraph.end_ =
      (if cfg.condition2 then
         [(ExampleGraph_Create_body D cfg w).1.finishingGraph.start + 2]
       else if cfg.condition4 then
         [(ExampleGraph_Create_body D cfg w).1.finishingGraph.start + 3,
          (ExampleGraph_Create_body D cfg w).1.finishingGraph.start + 2]
       else [(ExampleGraph_Create_body D cfg w).1.finishingGraph.start + 2]) ∧
    (ExampleGraph_Create_body D cfg w).2.nodes[
        (ExampleGraph_Create_body D cfg w).1.finishingGraph.start + 2]? =
      some (Role.task (if cfg.condition2 then cfg.task3Arg else cfg.task1Arg)) := by
  obtain ⟨w2, w3, w4, df1, df2, hw2, hw3, hw4, -, -, -, -, hc2, hD1, hD2, hL, hW⟩ :=
    ExampleGraph_Create_body_stages D cfg w h hF
  have hc3 : w3.calls = w.calls := by
    have := hN w2; rw [hD1] at this; rw [← hc2]; exact this
  have hc4 : w4.calls = w.calls := by
    have := hN w3; rw [hD2] at this; rw [← hc3]; exact this
  have hf4 := (hF w3 hw3).2.1
  rw [hD2] at hf4
  have hne : ¬ (df2.start = w4.nodes.length + 1) := by
    simp only [NodePtr] at *; omega
  have hfh := hw4.hardPreds_fresh (w4.nodes.length + 1) (by omega)
  have hcalls : (ExampleGraph_Create_body D cfg w).2.calls = w.calls ++
      ([ConfigCall.GetCondition2, ConfigCall.GetCondition4, ConfigCall.GetCondition7] ++
        (if cfg.condition2 then [ConfigCall.GetTask3Arg, ConfigCall.GetTask6Arg]
         else ConfigCall.GetTask1Arg ::
           (if cfg.condition4 then [ConfigCall.GetTask4Arg] else [])) ++
        (if cfg.condition7 then [] else [ConfigCall.GetTask7Arg])) := by
    rw [hW]
    simp [CreateFinishingGraph_eq true cfg w4 hw4, hc4]
  rw [hcalls, List.drop_left]
  rw [hL, hW]
  simp only [nodes_LinkDirectedHard, nodes_LinkDirectedSoft, nodes_LinkUndirected,
    hardPreds_LinkDirectedHard, hardPreds_LinkDirectedSoft, hardPreds_LinkUndirected]
  rw [CreateFinishingGraph_eq true cfg w4 hw4]
  obtain ⟨c2, c4, c7, a1, a2, a3, a4, a5, a6, a7⟩ := cfg
  refine ⟨trivial, ?_, ?_, ?_, ?_, ?_, ?_⟩
  · cases c2 <;> cases c4 <;> cases c7 <;> simp
  · cases c2 <;> cases c4 <;> cases c7 <;> simp
  · cases c2 <;> cases c4 <;> cases c7 <;> simp
  · cases c2 <;> cases c4 <;> cases c7 <;> simp
  · cases c2 <;> cases c4 <;> cases c7 <;>
      simp [hne, World.hardPreds, List.filter_cons, hfh]
  · cases c2 <;> cases c4 <;> cases c7 <;> simp <;> simp [List.getElem_append_right]

/-- Witness of C19 with the sample dataflow graph and `cfgTask1Only`, from the
empty state: the finishing graph starts at node 14, its end is node 15 and
task1 is node 16. -/
theorem C19_finishing_graph_condition1_true_witness :
    World.empty.WF ∧ DataflowFrame DataflowGraph_sample ∧
    DataflowNoConfigCalls DataflowGraph_sample ∧
    (ExampleGraph_Create_body DataflowGraph_sample cfgTask1Only World.empty).2.nodes.drop 14 =
      [Role.start, Role.end_, Role.task 31] ∧
    (ExampleGraph_Create_body DataflowGraph_sample cfgTask1Only World.empty).2.calls =
      [ConfigCall.GetCondition2, ConfigCall.GetCondition4, ConfigCall.GetCondition7,
       ConfigCall.GetTask1Arg] ∧
    (ExampleGraph_Create_body DataflowGraph_sample cfgTask1Only World.empty).2.hardPreds 15 =
      [16] := by
  have h := C19_finishing_graph_condition1_true DataflowGraph_sample cfgTask1Only World.empty
    World.empty_WF DataflowGraph_sample_frame DataflowGraph_sample_noConfigCalls
  exact ⟨World.empty_WF, DataflowGraph_sample_frame, DataflowGraph_sample_noConfigCalls,
    h.2.1, h.2.2.1, h.2.2.2.2.2.1⟩

/-! ## Strict sequencing of the dataflow stage and the finishing stage -/

/-- A node that has a hard predecessor which has not completed is not ready. -/
theorem World.not_ready_of_hard_pred (w : World) (completed : NodePtr → Bool)
    (p x : NodePtr) (hp : (p, x) ∈ w.hard) (hc : completed p = false) :
    w.ready completed x = false := by
  have hm : p ∈ w.hardPreds x := (w.mem_hardPreds p x).mpr hp
  have hall : (w.hardPreds x).all completed = false := by
    rw [Bool.eq_false_iff]
    intro hall
    rw [List.all_eq_true] at hall
    have := hall p hm
    rw [hc] at this
    exact Bool.false_ne_true this
  simp [World.ready, hall]

/-- If every node of a set `S` has a hard predecessor that is `gate` or a node
of `S`, then in a run in which `gate` has not completed no node of `S` has
completed and none is ready. -/
theorem World.no_run_before_gate (w : World) (S : NodePtr → Prop) (gate : NodePtr)
    (hS : ∀ x, S x → ∃ p, (p, x) ∈ w.hard ∧ (p = gate ∨ S p)) :
    ∀ run : List NodePtr, w.validRun run = true → gate ∉ run →
      ∀ x, S x → x ∉ run ∧ w.ready (completedAfter run) x = false := by
  have key : ∀ run : List NodePtr, w.validRun run = true → gate ∉ run →
      ∀ x, S x → x ∉ run := by
    intro run
    induction run with
    | nil => intro _ _ x _; exact List.not_mem_nil x
    | cons y earlier ih =>
      intro hv hg x hx hmem
      simp only [World.validRun, Bool.and_eq_true] at hv
      have hg' : gate ∉ earlier := fun hm => hg (List.mem_cons_of_mem _ hm)
      have ih' := ih hv.2 hg'
      rcases List.mem_cons.mp hmem with hxy | hxe
      · subst hxy
        obtain ⟨p, hp, hpS⟩ := hS x hx
        have hpe : p ∉ earlier := by
          rcases hpS with hpg | hpS
          · subst hpg; exact hg'
          · exact ih' p hpS
        have hc : completedAfter earlier p = false := by
          simp [completedAfter, hpe]
        have := w.not_ready_of_hard_pred (completedAfter earlier) p x hp hc
        rw [this] at hv
        exact Bool.false_ne_true hv.1
      · exact ih' x hx hxe
  intro run hv hg x hx
  refine ⟨key run hv hg x hx, ?_⟩
  obtain ⟨p, hp, hpS⟩ := hS x hx
  have hpe : p ∉ run := by
    rcases hpS with hpg | hpS
    · subst hpg; exact hg
    · exact key run hv hg p hpS
  exact w.not_ready_of_hard_pred (completedAfter run) p x hp (by simp [completedAfter, hpe])

/-- C13: after `ExampleGraph_Create` (from a well-formed state),
`finishingGraph.start` has exactly one predecessor, the hard predecessor
`dataflowGraph2.end`, so it is ready if and only if `dataflowGraph2.end` has
completed; the hard edge (dataflowGraph2.end, finishingGraph.start) is the
only directed edge that enters the finishing graph (the nodes created from
`finishingGraph.start` on) from outside; and in every run in which
`dataflowGraph2.end` has not completed, no node of the finishing graph has
completed and none is ready. -/
theorem C13_finishing_after_dataflow2 (D : World → Graph × World) (cfg : Configuration)
    (w : World) (h : w.WF) (hF : DataflowFrame D) :
    (ExampleGraph_Create_body D cfg w).2.hardPreds
        (ExampleGraph_Create_body D cfg w).1.finishingGraph.start =
      [(ExampleGraph_Create_body D cfg w).1.dataflowGraph2.end_] ∧
    (ExampleGraph_Create_body D cfg w).2.softPreds
        (ExampleGraph_Create_body D cfg w).1.finishingGraph.start = [] ∧
    (∀ events : List NodePtr,
      (ExampleGraph_Create_body D cfg w).2.ready (completedAfter events)
          (ExampleGraph_Create_body D cfg w).1.finishingGraph.start = true ↔
        (ExampleGraph_Create_body D cfg w).1.dataflowGraph2.end_ ∈ events) ∧
    (∀ e ∈ (ExampleGraph_Create_body D cfg w).2.directed,
      (ExampleGraph_Create_body D cfg w).1.finishingGraph.start ≤ e.2 →
      e.1 < (ExampleGraph_Create_body D cfg w).1.finishingGraph.start →
      e = ((ExampleGraph_Create_body D cfg w).1.dataflowGraph2.end_,
           (ExampleGraph_Create_body D cfg w).1.finishingGraph.start)) ∧
    (∀ run : List NodePtr,
      (ExampleGraph_Create_body D cfg w).2.validRun run = true →
      (ExampleGraph_Create_body D cfg w).1.dataflowGraph2.end_ ∉ run →
      ∀ x : NodePtr, (ExampleGraph_Create_body D cfg w).1.finishingGraph.start ≤ x →
        x < (ExampleGraph_Create_body D cfg w).2.nodes.length →
        x ∉ run ∧
        (ExampleGraph_Create_body D cfg w).2.ready (completedAfter run) x = false) := by
  obtain ⟨w2, w3, w4, df1, df2, hw2, hw3, hw4, -, -, -, -, -, hD1, hD2, hL, hW⟩ :=
    ExampleGraph_Create_body_stages D cfg w h hF
  have hf4 := hF w3 hw3
  rw [hD2] at hf4
  obtain ⟨-, hs4, he4⟩ := hf4
  have hne : ¬ (df2.start = w4.nodes.length) := by
    simp only [NodePtr] at *; omega
  have hne' : ¬ (w4.nodes.length = df2.start) := fun hc => hne hc.symm
  have hfh := hw4.hardPreds_fresh w4.nodes.length le_rfl
  have hfs := hw4.softPreds_fresh w4.nodes.length le_rfl
  have hE := CreateFinishingGraph_eq true cfg w4 hw4
  have h5 : (CreateFinishingGraph true cfg w4).2.hardPreds w4.nodes.length = [] ∧
      (CreateFinishingGraph true cfg w4).2.softPreds w4.nodes.length = [] := by
    rw [hE]
    obtain ⟨c2, c4, c7, a1, a2, a3, a4, a5, a6, a7⟩ := cfg
    cases c2 <;> cases c4 <;> cases c7 <;>
    simp [World.hardPreds, World.softPreds, List.filter_cons, hfh, hfs]
  have hh : (ExampleGraph_Create_body D cfg w).2.hardPreds
        (ExampleGraph_Create_body D cfg w).1.finishingGraph.start =
      [(ExampleGraph_Create_body D cfg w).1.dataflowGraph2.end_] := by
    rw [hL, hW]
    simp [hardPreds_LinkDirectedHard, hne, hne', h5.1, not_mem_hard_of_hardPreds_nil h5.1]
  have hs : (ExampleGraph_Create_body D cfg w).2.softPreds
        (ExampleGraph_Create_body D cfg w).1.finishingGraph.start = [] := by
    rw [hL, hW]
    simp [softPreds_LinkDirectedSoft, hne, hne', h5.2]
  refine ⟨hh, hs, ?_, ?_, ?_⟩
  · intro events
    simp [World.ready, hh, hs, completedAfter]
  · rw [hL, hW]
    rintro ⟨a, b⟩ he h1 h2
    simp only at h1 h2
    by_cases hmh : (a, b) ∈ w4.hard
    · have hlt : a < w4.nodes.length ∧ b < w4.nodes.length := hw4 (a, b) (by simp [hmh])
      simp only [NodePtr] at *
      omega
    by_cases hms : (a, b) ∈ w4.soft
    · have hlt : a < w4.nodes.length ∧ b < w4.nodes.length := hw4 (a, b) (by simp [hms])
      simp only [NodePtr] at *
      omega
    rw [hE] at he
    obtain ⟨c2, c4, c7, a1, a2, a3, a4, a5, a6, a7⟩ := cfg
    cases c2 <;> cases c4 <;> cases c7 <;>
    simp [World.directed, hmh, hms] at he ⊢ <;>
    simp only [NodePtr] at * <;>
    omega
  · have hlen : w4.nodes.length + 3 ≤ (ExampleGraph_Create_body D cfg w).2.nodes.length := by
      rw [hW]
      simp only [nodes_LinkDirectedHard, nodes_LinkDirectedSoft, nodes_LinkUndirected]
      rw [(CreateFinishingGraph_nodes_calls true cfg w4).1]
      obtain ⟨c2, c4, c7, a1, a2, a3, a4, a5, a6, a7⟩ := cfg
      cases c2 <;> cases c4 <;> cases c7 <;> simp
    have hcand : ∀ x : NodePtr, w4.nodes.length ≤ x →
        x < (ExampleGraph_Create_body D cfg w).2.nodes.length →
        (df2.end_, x) ∈ (ExampleGraph_Create_body D cfg w).2.hard ∨
        (w4.nodes.length, x) ∈ (ExampleGraph_Create_body D cfg w).2.hard ∨
        (w4.nodes.length + 2, x) ∈ (ExampleGraph_Create_body D cfg w).2.hard := by
      intro x hx1 hx2
      rw [hW] at hx2 ⊢
      simp only [nodes_LinkDirectedHard, nodes_LinkDirectedSoft, nodes_LinkUndirected] at hx2
      rw [hE] at hx2 ⊢
      obtain ⟨j, rfl⟩ : ∃ j, x = w4.nodes.length + j := ⟨x - w4.nodes.length, by
        simp only [NodePtr] at *; omega⟩
      obtain ⟨c2, c4, c7, a1, a2, a3, a4, a5, a6, a7⟩ := cfg
      cases c2 <;> cases c4 <;> cases c7 <;>
      simp at hx2 <;>
      interval_cases j <;>
      simp
    rw [hL]
    intro run hv hg x hx1 hx2
    refine World.no_run_before_gate _
      (fun x => w4.nodes.length ≤ x ∧ x < (ExampleGraph_Create_body D cfg w).2.nodes.length)
      df2.end_ ?_ run hv hg x ⟨hx1, hx2⟩
    rintro y ⟨hy1, hy2⟩
    rcases hcand y hy1 hy2 with hc | hc | hc
    · exact ⟨df2.end_, hc, Or.inl rfl⟩
    · exact ⟨w4.nodes.length, hc, Or.inr ⟨le_rfl,
        lt_of_lt_of_le (Nat.lt_add_of_pos_right (by norm_num)) hlen⟩⟩
    · exact ⟨w4.nodes.length + 2, hc, Or.inr ⟨Nat.le_add_right _ _,
        lt_of_lt_of_le (Nat.add_lt_add_left (by norm_num) _) hlen⟩⟩

/-- Witness of C13 with the sample dataflow graph and `cfgPrimaryOnly`, from
the empty state: `dataflowGraph2.end` is node 13, `finishingGraph.start` node
14; after the run in which nodes 0 and 1 completed, the end node 15 of the
finishing graph has not completed and is not ready. -/
theorem C13_finishing_after_dataflow2_witness :
    World.empty.WF ∧ DataflowFrame DataflowGraph_sample ∧
    (ExampleGraph_Create_body DataflowGraph_sample cfgPrimaryOnly World.empty).2.hardPreds 14
      = [13] ∧
    (ExampleGraph_Create_body DataflowGraph_sample cfgPrimaryOnly World.empty).2.softPreds 14
      = [] ∧
    (ExampleGraph_Create_body DataflowGraph_sample cfgPrimaryOnly World.empty).2.validRun
      [1, 0] = true ∧
    (15 ∉ [1, 0] ∧
      (ExampleGraph_Create_body DataflowGraph_sample cfgPrimaryOnly World.empty).2.ready
        (completedAfter [1, 0]) 15 = false) := by
  have h := C13_finishing_after_dataflow2 DataflowGraph_sample cfgPrimaryOnly World.empty
    World.empty_WF DataflowGraph_sample_frame
  exact ⟨World.empty_WF, DataflowGraph_sample_frame, h.1, h.2.1, by decide,
    h.2.2.2.2 [1, 0] (by decide) (by decide) 15 (by decide) (by decide)⟩

/-! ## Node identities -/

theorem range'_split (a b c : Nat) (hab : a ≤ b) (hbc : b ≤ c) :
    List.range' a (c - a) = List.range' a (b - a) ++ List.range' b (c - b) := by
  have hb : List.range' b (c - b) = List.range' (a + (b - a)) (c - b) := by
    congr 1; omega
  rw [hb, List.range'_append_1]
  congr 1; omega

theorem DataflowGraph_sample_local : DataflowLocal DataflowGraph_sample := by
  intro w h
  rw [DataflowGraph_sample_eq w h]
  refine ⟨le_rfl, Nat.le_add_right _ _, ?_, ?_⟩
  · intro e he
    simp only [World.directed, List.mem_append] at he ⊢
    rcases he with he | he
    · exact Or.inl (Or.inl he)
    · exact Or.inr he
  · rintro ⟨a, b⟩ he hne
    have hmh : (a, b) ∉ w.hard := fun hm => hne (by simp [World.directed, hm])
    have hms : (a, b) ∉ w.soft := fun hm => hne (by simp [World.directed, hm])
    simp [World.directed, hmh, hms] at he
    simp only [NodePtr] at *
    omega

/-- C17: the node factories hand out the next free position of the node arena,
so nodes are never overwritten and every factory call returns a pointer
different from all earlier ones.  `CreateTaskDependencyGraph` creates the five
nodes `n .. n+4` and `CreateFinishingGraph`, for every flag combination, start
`n`, end `n+1` and task nodes at the following positions, all pairwise
distinct.  In `ExampleGraph_Create` (from a well-formed state with `n` nodes,
with a `DataflowGraph_Create` whose boundary nodes are new created nodes) the
nodes created are, in order and without repetition, those of
`CreateTaskDependencyGraph(1, 2, 3)` (`n .. n+4`), those of
`CreateTaskDependencyGraph(4, 5, 6)` (`n+5 .. n+9`), which share no node, those
of the dataflow graphs (holding their four boundary nodes) and those of the
finishing graph. -/
theorem C17_node_identities_distinct (D : World → Graph × World) (cfg : Configuration)
    (w : World) (h : w.WF) (hF : DataflowFrame D) (hL : DataflowLocal D) :
    (∀ arg1 arg2 arg3 : Int,
      (CreateTaskDependencyGraph arg1 arg2 arg3 w).2.nodes = w.nodes ++
        [Role.start, Role.task arg1, Role.task arg2, Role.task arg3, Role.end_] ∧
      createdBy w (CreateTaskDependencyGraph arg1 arg2 arg3 w).2 =
        [w.nodes.length, w.nodes.length + 1, w.nodes.length + 2, w.nodes.length + 3,
         w.nodes.length + 4] ∧
      (createdBy w (CreateTaskDependencyGraph arg1 arg2 arg3 w).2).Nodup) ∧
    (∀ condition1 : Bool,
      (CreateFinishingGraph condition1 cfg w).1 =
        { start := w.nodes.length, end_ := w.nodes.length + 1 } ∧
      (∃ tasks : List Int,
        (CreateFinishingGraph condition1 cfg w).2.nodes =
          w.nodes ++ Role.start :: Role.end_ :: tasks.map Role.task ∧
        createdBy w (CreateFinishingGraph condition1 cfg w).2 =
          w.nodes.length :: (w.nodes.length + 1) ::
            List.range' (w.nodes.length + 2) tasks.length) ∧
      (createdBy w (CreateFinishingGraph condition1 cfg w).2).Nodup) ∧
    (ExampleGraph_Create_body D cfg w).1.taskDependencyGraph1 =
      { start := w.nodes.length, end_ := w.nodes.length + 4 } ∧
    (ExampleGraph_Create_body D cfg w).1.taskDependencyGraph2 =
      { start := w.nodes.length + 5, end_ := w.nodes.length + 9 } ∧
    (ExampleGraph_Create_body D cfg w).1.finishingGraph.end_ =
      (ExampleGraph_Create_body D cfg w).1.finishingGraph.start + 1 ∧
    createdBy w (ExampleGraph_Create_body D cfg w).2 =
      List.range' w.nodes.length 5 ++ List.range' (w.nodes.length + 5) 5 ++
        List.range' (w.nodes.length + 10)
          ((ExampleGraph_Create_body D cfg w).1.finishingGraph.start - (w.nodes.length + 10)) ++
        List.range' (ExampleGraph_Create_body D cfg w).1.finishingGraph.start
          ((ExampleGraph_Create_body D cfg w).2.nodes.length -
            (ExampleGraph_Create_body D cfg w).1.finishingGraph.start) ∧
    (createdBy w (ExampleGraph_Create_body D cfg w).2).Nodup ∧
    List.Disjoint (List.range' w.nodes.length 5) (List.range' (w.nodes.length + 5) 5) ∧
    (∀ x ∈ [(ExampleGraph_Create_body D cfg w).1.dataflowGraph1.start,
            (ExampleGraph_Create_body D cfg w).1.dataflowGraph1.end_,
            (ExampleGraph_Create_body D cfg w).1.dataflowGraph2.start,
            (ExampleGraph_Create_body D cfg w).1.dataflowGraph2.end_],
      x ∈ List.range' (w.nodes.length + 10)
        ((ExampleGraph_Create_body D cfg w).1.finishingGraph.start - (w.nodes.length + 10))) ∧
    (ExampleGraph_Create_body D cfg w).1.finishingGraph.start + 1 <
      (ExampleGraph_Create_body D cfg w).2.nodes.length := by
  obtain ⟨w2, w3, w4, df1, df2, hw2, hw3, hw4, hn2, -, -, -, -, hD1, hD2, hG, hW⟩ :=
    ExampleGraph_Create_body_stages D cfg w h hF
  have hf3 := hF w2 hw2
  have hl3 := hL w2 hw2
  rw [hD1] at hf3 hl3
  have hf4 := hF w3 hw3
  have hl4 := hL w3 hw3
  rw [hD2] at hf4 hl4
  simp only at hf3 hl3 hf4 hl4
  have hlen2 : w2.nodes.length = w.nodes.length + 10 := by rw [hn2]; simp
  have hlenF : (ExampleGraph_Create_body D cfg w).2.nodes.length =
      (CreateFinishingGraph true cfg w4).2.nodes.length := by
    rw [hW]; simp
  have hlen5 : w4.nodes.length + 3 ≤ (CreateFinishingGraph true cfg w4).2.nodes.length := by
    rw [(CreateFinishingGraph_nodes_calls true cfg w4).1]
    obtain ⟨c2, c4, c7, a1, a2, a3, a4, a5, a6, a7⟩ := cfg
    cases c2 <;> cases c4 <;> cases c7 <;> simp
  refine ⟨?_, ?_, ?_, ?_, ?_, ?_, ?_, ?_, ?_, ?_⟩
  · intro arg1 arg2 arg3
    rw [CreateTaskDependencyGraph_eq _ _ _ w h]
    refine ⟨rfl, ?_, List.nodup_range' _ _⟩
    simp [createdBy, List.range'_succ]
  · intro condition1
    refine ⟨CreateFinishingGraph_graph condition1 cfg w, ?_, List.nodup_range' _ _⟩
    simp only [createdBy]
    rw [(CreateFinishingGraph_nodes_calls condition1 cfg w).1]
    obtain ⟨c2, c4, c7, a1, a2, a3, a4, a5, a6, a7⟩ := cfg
    refine ⟨(if condition1 && c2 then [a3, a6]
        else if condition1 then a1 :: (if c4 then [a4] else []) else [a2, a5]) ++
        (if c7 then [] else [a7]), ?_, ?_⟩
    · cases condition1 <;> cases c2 <;> cases c4 <;> cases c7 <;> simp
    · cases condition1 <;> cases c2 <;> cases c4 <;> cases c7 <;> simp [List.range'_succ]
  · rw [hG]
  · rw [hG]
  · rw [hG]
  · rw [hG, hlenF]
    simp only [createdBy, hlenF]
    simp only [NodePtr] at *
    have e1 := range'_split (w.nodes.length + 10) w4.nodes.length
      (CreateFinishingGraph true cfg w4).2.nodes.length (by omega) (by omega)
    have e2 := range'_split (w.nodes.length + 5) (w.nodes.length + 10)
      (CreateFinishingGraph true cfg w4).2.nodes.length (by omega) (by omega)
    have e3 := range'_split w.nodes.length (w.nodes.length + 5)
      (CreateFinishingGraph true cfg w4).2.nodes.length (by omega) (by omega)
    have a2 : w.nodes.length + 10 - (w.nodes.length + 5) = 5 := by omega
    have a3 : w.nodes.length + 5 - w.nodes.length = 5 := by omega
    rw [a2] at e2
    rw [a3] at e3
    rw [e3, e2, e1, List.append_assoc, List.append_assoc]
  · exact List.nodup_range' _ _
  · intro x hx1 hx2
    simp only [List.mem_range'_1] at hx1 hx2
    omega
  · rw [hG]
    intro x hx
    simp only [List.mem_cons, List.mem_singleton, List.not_mem_nil, or_false] at hx
    simp only [List.mem_range'_1]
    simp only [NodePtr] at *
    omega
  · rw [hG, hlenF]
    simp only [NodePtr] at *
    omega

/-- Witness of C17 with the sample dataflow graph and `cfgOptionalBranch`,
from the empty state: nodes 0-4 and 5-9 are those of the task dependency
graphs, 10-13 those of the dataflow graphs and 14-18 those of the finishing
graph. -/
theorem C17_node_identities_distinct_witness :
    World.empty.WF ∧ DataflowFrame DataflowGraph_sample ∧
    DataflowLocal DataflowGraph_sample ∧
    createdBy World.empty
        (ExampleGraph_Create_body DataflowGraph_sample cfgOptionalBranch World.empty).2 =
      List.range' 0 5 ++ List.range' 5 5 ++ List.range' 10 4 ++ List.range' 14 5 ∧
    (createdBy World.empty
      (ExampleGraph_Create_body DataflowGraph_sample cfgOptionalBranch World.empty).2).Nodup ∧
    List.Disjoint (List.range' 0 5) (List.range' 5 5) := by
  have h := C17_node_identities_distinct DataflowGraph_sample cfgOptionalBranch World.empty
    World.empty_WF DataflowGraph_sample_frame DataflowGraph_sample_local
  exact ⟨World.empty_WF, DataflowGraph_sample_frame, DataflowGraph_sample_local,
    h.2.2.2.2.2.1, h.2.2.2.2.2.2.1, h.2.2.2.2.2.2.2.1⟩

/-! ## Acyclicity -/

/-- Edges added among new nodes only, and forming no cycle among themselves,
keep the graph acyclic. -/
theorem World.acyclic_of_local_extension (w v : World) (n : Nat)
    (R : NodePtr → NodePtr → Prop)
    (hw : w.Acyclic)
    (hold : ∀ e ∈ w.directed, e.1 < n ∧ e.2 < n)
    (hnew : ∀ e ∈ v.directed, e ∈ w.directed ∨ (n ≤ e.1 ∧ n ≤ e.2 ∧ R e.1 e.2))
    (hR : ∀ x, ¬ Relation.TransGen R x x) : v.Acyclic := by
  have key : ∀ x y, Relation.TransGen v.Edge x y →
      (Relation.TransGen w.Edge x y ∧ y < n) ∨ (Relation.TransGen R x y ∧ n ≤ y) := by
    intro x y hxy
    induction hxy with
    | single hxy =>
      rcases hnew _ hxy with ho | ⟨-, h2, h3⟩
      · exact Or.inl ⟨Relation.TransGen.single ho, (hold _ ho).2⟩
      · exact Or.inr ⟨Relation.TransGen.single h3, h2⟩
    | tail _ hyz ih =>
      rcases hnew _ hyz with ho | ⟨h1, h2, h3⟩
      · rcases ih with ⟨ih1, -⟩ | ⟨-, ih2⟩
        · exact Or.inl ⟨Relation.TransGen.tail ih1 ho, (hold _ ho).2⟩
        · exact absurd (hold _ ho).1 (Nat.not_lt.mpr ih2)
      · rcases ih with ⟨-, ih2⟩ | ⟨ih1, -⟩
        · exact absurd ih2 (Nat.not_lt.mpr h1)
        · exact Or.inr ⟨Relation.TransGen.tail ih1 h3, h2⟩
  intro x hx
  rcases key x x hx with ⟨h1, -⟩ | ⟨h1, -⟩
  · exact hw x h1
  · exact hR x h1

/-- One more edge `(a, b)` keeps the graph acyclic when `a` is not reachable
from `b`. -/
theorem World.acyclic_of_add_edge (w v : World) (a b : NodePtr)
    (hw : w.Acyclic)
    (hv : ∀ e ∈ v.directed, e ∈ w.directed ∨ e = (a, b))
    (hnr : ¬ w.Reachable b a) : v.Acyclic := by
  have key : ∀ x y, Relation.TransGen v.Edge x y →
      Relation.TransGen w.Edge x y ∨ (w.Reachable x a ∧ w.Reachable b y) := by
    intro x y hxy
    induction hxy with
    | single hxy =>
      rcases hv _ hxy with ho | he
      · exact Or.inl (Relation.TransGen.single ho)
      · simp only [Prod.mk.injEq] at he
        obtain ⟨h1, h2⟩ := he
        subst h1; subst h2
        exact Or.inr ⟨Relation.ReflTransGen.refl, Relation.ReflTransGen.refl⟩
    | tail _ hyz ih =>
      rcases hv _ hyz with ho | he
      · rcases ih with ih | ⟨ih1, ih2⟩
        · exact Or.inl (Relation.TransGen.tail ih ho)
        · exact Or.inr ⟨ih1, Relation.ReflTransGen.tail ih2 ho⟩
      · simp only [Prod.mk.injEq] at he
        obtain ⟨h1, h2⟩ := he
        subst h1; subst h2
        rcases ih with ih | ⟨ih1, -⟩
        · exact Or.inr ⟨Relation.TransGen.to_reflTransGen ih, Relation.ReflTransGen.refl⟩
        · exact Or.inr ⟨ih1, Relation.ReflTransGen.refl⟩
  intro x hx
  rcases key x x hx with h1 | ⟨h1, h2⟩
  · exact hw x h1
  · exact hnr (Relation.ReflTransGen.trans h2 h1)

/-- When no edge leads from a node at or after position `k` to a node before
`k`, no path does. -/
theorem World.not_reachable_of_forward (w : World) (k : Nat) (a b : NodePtr)
    (hfw : ∀ e ∈ w.directed, k ≤ e.1 → k ≤ e.2) (ha : k ≤ a) (hb : b < k) :
    ¬ w.Reachable a b := by
  intro hr
  have key : ∀ y, w.Reachable a y → k ≤ y := by
    intro y hy
    induction hy with
    | refl => exact ha
    | tail _ hxy ih => exact hfw _ hxy ih
  exact absurd hb (Nat.not_lt.mpr (key b hr))

/-- A relation along which a rank increases has no cycle. -/
theorem transGen_rank_irrefl (rank : NodePtr → Nat) (x : NodePtr) :
    ¬ Relation.TransGen (fun a b => rank a < rank b) x x := by
  have key : ∀ a b, Relation.TransGen (fun a b => rank a < rank b) a b → rank a < rank b := by
    intro a b hab
    induction hab with
    | single h => exact h
    | tail _ h ih => exact Nat.lt_trans ih h
  intro hx
  exact Nat.lt_irrefl _ (key x x hx)

theorem World.empty_acyclic : World.empty.Acyclic := by
  intro x hx
  have key : ∀ a b, Relation.TransGen World.empty.Edge a b → False := by
    intro a b hab
    induction hab with
    | single h => simp [World.Edge, World.directed, World.empty] at h
    | tail _ h _ => simp [World.Edge, World.directed, World.empty] at h
  exact key x x hx

theorem World.WF.directed_lt {w : World} (h : w.WF) :
    ∀ e ∈ w.directed, e.1 < w.nodes.length ∧ e.2 < w.nodes.length := by
  intro e he
  apply h e
  simp only [World.directed, List.mem_append] at he ⊢
  exact Or.inl he

theorem mem_directed_LinkDirectedHard (a b : NodePtr) (w : World) (e : NodePtr × NodePtr) :
    e ∈ (Utility_LinkDirectedHard a b w).directed ↔ e ∈ w.directed ∨ e = (a, b) := by
  simp only [World.directed, List.mem_append, mem_hard_LinkDirectedHard,
    soft_LinkDirectedHard]
  tauto

theorem mem_directed_LinkDirectedSoft (a b : NodePtr) (w : World) (e : NodePtr × NodePtr) :
    e ∈ (Utility_LinkDirectedSoft a b w).directed ↔ e ∈ w.directed ∨ e = (a, b) := by
  simp only [World.directed, List.mem_append, mem_soft_LinkDirectedSoft,
    hard_LinkDirectedSoft]
  tauto

theorem directed_LinkUndirected (a b : NodePtr) (w : World) :
    (Utility_LinkUndirected a b w).directed = w.directed := rfl

/-- One more edge whose source lies before `k` or whose target lies at or
after `k` keeps the edges from leading back before `k`. -/
theorem World.forward_of_add_edge (w v : World) (k : Nat) (a b : NodePtr)
    (hv : ∀ e ∈ v.directed, e ∈ w.directed ∨ e = (a, b))
    (hfw : ∀ e ∈ w.directed, k ≤ e.1 → k ≤ e.2) (hab : a < k ∨ k ≤ b) :
    ∀ e ∈ v.directed, k ≤ e.1 → k ≤ e.2 := by
  intro e he hk
  rcases hv e he with ho | heq
  · exact hfw e ho hk
  · subst heq
    rcases hab with hab | hab
    · exact absurd hab (Nat.not_lt.mpr hk)
    · exact hab

/-- The directed edges `CreateFinishingGraph` registers join new nodes, and
along each of them the rank that puts the end node last increases. -/
theorem CreateFinishingGraph_local (condition1 : Bool) (cfg : Configuration) (w : World)
    (h : w.WF) :
    ∀ e ∈ (CreateFinishingGraph condition1 cfg w).2.directed,
      e ∈ w.directed ∨ (w.nodes.length ≤ e.1 ∧ w.nodes.length ≤ e.2 ∧
        (if e.1 = w.nodes.length + 1 then e.1 + 10 else e.1) <
          (if e.2 = w.nodes.length + 1 then e.2 + 10 else e.2)) := by
  rw [CreateFinishingGraph_eq _ _ w h]
  rintro ⟨a, b⟩ he
  by_cases hmh : (a, b) ∈ w.hard
  · exact Or.inl (by simp [World.directed, hmh])
  by_cases hms : (a, b) ∈ w.soft
  · exact Or.inl (by simp [World.directed, hms])
  right
  obtain ⟨c2, c4, c7, a1, a2, a3, a4, a5, a6, a7⟩ := cfg
  cases condition1 <;> cases c2 <;> cases c4 <;> cases c7 <;>
  simp [World.directed, hmh, hms] at he <;>
  simp only [NodePtr] at * <;>
  (split_ifs <;> omega)

/-- The graph of `DataflowGraph_Create` keeps the state acyclic. -/
theorem DataflowAcyclic.acyclic {D : World → Graph × World} (hA : DataflowAcyclic D)
    (hL : DataflowLocal D) (w : World) (h : w.WF) (hw : w.Acyclic) : (D w).2.Acyclic := by
  apply World.acyclic_of_local_extension w (D w).2 w.nodes.length
    (fun a b => (a, b) ∈ (D w).2.directed ∧ (a, b) ∉ w.directed) hw h.directed_lt
  · intro e he
    by_cases ho : e ∈ w.directed
    · exact Or.inl ho
    · have := (hL w h).2.2.2 e he ho
      exact Or.inr ⟨this.1, this.2, he, ho⟩
  · exact hA w h

theorem DataflowGraph_sample_acyclic : DataflowAcyclic DataflowGraph_sample := by
  intro w h x hx
  have step : ∀ a b : NodePtr, ((a, b) ∈ (DataflowGraph_sample w).2.directed ∧
      (a, b) ∉ w.directed) → a < b := by
    rintro a b ⟨h1, h2⟩
    rw [DataflowGraph_sample_eq w h] at h1
    have hmh : (a, b) ∉ w.hard := fun hm => h2 (by simp [World.directed, hm])
    have hms : (a, b) ∉ w.soft := fun hm => h2 (by simp [World.directed, hm])
    simp [World.directed, hmh, hms] at h1
    simp only [NodePtr] at *
    omega
  exact transGen_rank_irrefl id x (Relation.TransGen.mono step hx)

/-- C12: the assembled graph is a DAG: for every configuration, from a
well-formed acyclic state, with a `DataflowGraph_Create` whose graphs are
acyclic and share no node with the graphs built before, the directed edges
(hard and soft) present after `ExampleGraph_Create`, those registered by
`CreateTaskDependencyGraph`, `DataflowGraph_Create`, `CreateFinishingGraph` and
the composition steps, contain no directed cycle. -/
theorem C12_assembled_graph_acyclic (D : World → Graph × World) (cfg : Configuration)
    (w : World) (h : w.WF) (hw : w.Acyclic) (hF : DataflowFrame D) (hL : DataflowLocal D)
    (hA : DataflowAcyclic D) :
    (ExampleGraph_Create_body D cfg w).2.Acyclic := by
  obtain ⟨w2, w3, w4, df1, df2, hw2, hw3, hw4, hn2, hh2, hs2, -, -, hD1, hD2, -, hW⟩ :=
    ExampleGraph_Create_body_stages D cfg w h hF
  have hf3 := hF w2 hw2
  have hl3 := hL w2 hw2
  have ha3 := hA.acyclic hL w2 hw2
  rw [hD1] at hf3 hl3 ha3
  have hf4 := hF w3 hw3
  have hl4 := hL w3 hw3
  have ha4 := hA.acyclic hL w3 hw3
  rw [hD2] at hf4 hl4 ha4
  simp only at hf3 hl3 ha3 hf4 hl4 ha4
  have hlen2 : w2.nodes.length = w.nodes.length + 10 := by rw [hn2]; simp
  -- the two task dependency graphs
  have hac2 : w2.Acyclic := by
    apply World.acyclic_of_local_extension w w2 w.nodes.length (fun a b => a < b) hw
      h.directed_lt
    · rintro ⟨a, b⟩ he
      by_cases hmh : (a, b) ∈ w.hard
      · exact Or.inl (by simp [World.directed, hmh])
      by_cases hms : (a, b) ∈ w.soft
      · exact Or.inl (by simp [World.directed, hms])
      right
      simp [World.directed, hh2, hs2, hmh, hms] at he
      simp only [NodePtr] at *
      omega
    · exact transGen_rank_irrefl id
  -- the two dataflow graphs
  have hac3 : w3.Acyclic := ha3 hac2
  have hac4 : w4.Acyclic := ha4 hac3
  -- the finishing graph
  have hloc5 := CreateFinishingGraph_local true cfg w4 hw4
  have hac5 : (CreateFinishingGraph true cfg w4).2.Acyclic := by
    apply World.acyclic_of_local_extension w4 _ w4.nodes.length
      (fun a b => (if a = w4.nodes.length + 1 then a + 10 else a) <
        (if b = w4.nodes.length + 1 then b + 10 else b)) hac4 hw4.directed_lt hloc5
    exact transGen_rank_irrefl (fun a => if a = w4.nodes.length + 1 then a + 10 else a)
  -- edges never lead back before the second dataflow graph, nor before the finishing graph
  have hfw4 : ∀ e ∈ w4.directed, w3.nodes.length ≤ e.1 → w3.nodes.length ≤ e.2 := by
    intro e he hk
    by_cases ho : e ∈ w3.directed
    · exact absurd (hw3.directed_lt e ho).1 (Nat.not_lt.mpr hk)
    · exact (hl4.2.2.2 e he ho).2
  have h34 : w3.nodes.length ≤ w4.nodes.length := by
    have := hl4.1; have := hf4.2.1
    simp only [NodePtr] at *; omega
  have hfw5 : ∀ e ∈ (CreateFinishingGraph true cfg w4).2.directed,
      w3.nodes.length ≤ e.1 → w3.nodes.length ≤ e.2 := by
    intro e he hk
    rcases hloc5 e he with ho | ⟨-, h2, -⟩
    · exact hfw4 e ho hk
    · exact Nat.le_trans h34 h2
  have hfw5' : ∀ e ∈ (CreateFinishingGraph true cfg w4).2.directed,
      w4.nodes.length ≤ e.1 → w4.nodes.length ≤ e.2 := by
    intro e he hk
    rcases hloc5 e he with ho | ⟨-, h2, -⟩
    · exact absurd (hw4.directed_lt e ho).1 (Nat.not_lt.mpr hk)
    · exact h2
  have hb1 : w.nodes.length + 4 < w3.nodes.length := by
    have := hl3.1; have := hf3.2.1
    simp only [NodePtr] at *; omega
  have hb2 : w.nodes.length + 9 < w3.nodes.length := by
    have := hl3.1; have := hf3.2.1
    simp only [NodePtr] at *; omega
  rw [hW]
  -- the soft link of line 94
  have hv1 : ∀ e ∈ (Utility_LinkDirectedSoft (w.nodes.length + 4) df2.start
      (Utility_LinkUndirected df1.end_ (w.nodes.length + 5)
        (Utility_LinkUndirected df1.end_ w.nodes.length
          (CreateFinishingGraph true cfg w4).2))).directed,
      e ∈ (CreateFinishingGraph true cfg w4).2.directed ∨
        e = (w.nodes.length + 4, df2.start) := by
    intro e he
    rw [mem_directed_LinkDirectedSoft, directed_LinkUndirected, directed_LinkUndirected] at he
    exact he
  have hac6 := World.acyclic_of_add_edge _ _ _ _ hac5 hv1
    (World.not_reachable_of_forward _ w3.nodes.length _ _ hfw5 hl4.1 hb1)
  have hfw6 := World.forward_of_add_edge _ _ w3.nodes.length _ _ hv1 hfw5 (Or.inl hb1)
  have hfw6' := World.forward_of_add_edge _ _ w4.nodes.length _ _ hv1 hfw5'
    (Or.inl (Nat.lt_of_lt_of_le hb1 h34))
  -- the hard link of line 95
  have hv2 : ∀ e ∈ (Utility_LinkDirectedHard (w.nodes.length + 9) df2.start
      (Utility_LinkDirectedSoft (w.nodes.length + 4) df2.start
        (Utility_LinkUndirected df1.end_ (w.nodes.length + 5)
          (Utility_LinkUndirected df1.end_ w.nodes.length
            (CreateFinishingGraph true cfg w4).2)))).directed,
      e ∈ (Utility_LinkDirectedSoft (w.nodes.length + 4) df2.start
        (Utility_LinkUndirected df1.end_ (w.nodes.length + 5)
          (Utility_LinkUndirected df1.end_ w.nodes.length
            (CreateFinishingGraph true cfg w4).2))).directed ∨
        e = (w.nodes.length + 9, df2.start) := by
    intro e he
    rw [mem_directed_LinkDirectedHard] at he
    exact he
  have hac7 := World.acyclic_of_add_edge _ _ _ _ hac6 hv2
    (World.not_reachable_of_forward _ w3.nodes.length _ _ hfw6 hl4.1 hb2)
  have hfw7' := World.forward_of_add_edge _ _ w4.nodes.length _ _ hv2 hfw6'
    (Or.inl (Nat.lt_of_lt_of_le hb2 h34))
  -- the hard link of line 97
  refine World.acyclic_of_add_edge _ _ df2.end_ w4.nodes.length hac7 ?_
    (World.not_reachable_of_forward _ w4.nodes.length _ _ hfw7' le_rfl hf4.2.2)
  intro e he
  rw [mem_directed_LinkDirectedHard] at he
  exact he

/-- Witness of C12 with the sample dataflow graph and `cfgOptionalBranch`,
from the empty state. -/
theorem C12_assembled_graph_acyclic_witness :
    World.empty.WF ∧ World.empty.Acyclic ∧ DataflowFrame DataflowGraph_sample ∧
    DataflowLocal DataflowGraph_sample ∧ DataflowAcyclic DataflowGraph_sample ∧
    (ExampleGraph_Create_body DataflowGraph_sample cfgOptionalBranch World.empty).2.Acyclic :=
  ⟨World.empty_WF, World.empty_acyclic, DataflowGraph_sample_frame,
    DataflowGraph_sample_local, DataflowGraph_sample_acyclic,
    C12_assembled_graph_acyclic DataflowGraph_sample cfgOptionalBranch World.empty
      World.empty_WF World.empty_acyclic DataflowGraph_sample_frame
      DataflowGraph_sample_local DataflowGraph_sample_acyclic⟩

/-! ## Sources and sinks of the assembled graph -/

theorem World.isSource_iff (w : World) (x : NodePtr) :
    w.isSource x ↔ ∀ a, (a, x) ∉ w.directed := by
  simp [World.isSource]

theorem World.isSink_iff (w : World) (x : NodePtr) :
    w.isSink x ↔ ∀ b, (x, b) ∉ w.directed := by
  simp [World.isSink]

/-- Edges added among the nodes from position `k` on change neither the
sources nor the sinks before `k`. -/
theorem World.isSource_isSink_of_local (w v : World) (k : Nat) (x : NodePtr)
    (hsub : ∀ e ∈ w.directed, e ∈ v.directed)
    (hnew : ∀ e ∈ v.directed, e ∉ w.directed → k ≤ e.1 ∧ k ≤ e.2) (hx : x < k) :
    (v.isSource x ↔ w.isSource x) ∧ (v.isSink x ↔ w.isSink x) := by
  simp only [World.isSource_iff, World.isSink_iff]
  constructor
  · constructor
    · intro hv a ha
      exact hv a (hsub _ ha)
    · intro hw a ha
      by_cases ho : (a, x) ∈ w.directed
      · exact hw a ho
      · exact absurd hx (Nat.not_lt.mpr (hnew _ ha ho).2)
  · constructor
    · intro hv b hb
      exact hv b (hsub _ hb)
    · intro hw b hb
      by_cases ho : (x, b) ∈ w.directed
      · exact hw b ho
      · exact absurd hx (Nat.not_lt.mpr (hnew _ hb ho).1)

/-- One more edge `(a, b)` takes `b` from the sources and `a` from the sinks. -/
theorem World.isSource_isSink_of_add_edge (w v : World) (a b x : NodePtr)
    (hv : ∀ e, e ∈ v.directed ↔ e ∈ w.directed ∨ e = (a, b)) :
    (v.isSource x ↔ w.isSource x ∧ b ≠ x) ∧ (v.isSink x ↔ w.isSink x ∧ a ≠ x) := by
  simp only [World.isSource_iff, World.isSink_iff, hv, Prod.mk.injEq]
  constructor
  · constructor
    · intro h
      refine ⟨fun c hc => h c (Or.inl hc), fun hb => h a (Or.inr ⟨rfl, hb.symm⟩)⟩
    · rintro ⟨h1, h2⟩ c (hc | ⟨-, hc⟩)
      · exact h1 c hc
      · exact h2 hc.symm
  · constructor
    · intro h
      refine ⟨fun c hc => h c (Or.inl hc), fun ha => h b (Or.inr ⟨ha.symm, rfl⟩)⟩
    · rintro ⟨h1, h2⟩ c (hc | ⟨hc, -⟩)
      · exact h1 c hc
      · exact h2 hc.symm

theorem DataflowGraph_sample_singleSourceSink :
    DataflowSingleSourceSink DataflowGraph_sample := by
  intro w h x hx1 hx2
  rw [DataflowGraph_sample_eq w h] at hx2 ⊢
  simp only [List.length_append, List.length_cons, List.length_nil] at hx2
  obtain ⟨j, rfl⟩ : ∃ j, x = w.nodes.length + j := ⟨x - w.nodes.length, by
    simp only [NodePtr] at *; omega⟩
  have hj : j < 2 := by simp only [NodePtr] at *; omega
  interval_cases j <;>
  simp [World.isSource, World.isSink, World.directed, h.hard_fresh, h.soft_fresh]

/-- Sources and sinks among the nodes of `CreateFinishingGraph(true)`: start is
the only node without incoming edge; end and, when `condition2` holds, task6
are the nodes without outgoing edge. -/
theorem CreateFinishingGraph_true_sources_sinks (cfg : Configuration) (w : World) (h : w.WF)
    (x : NodePtr) (hx1 : w.nodes.length ≤ x)
    (hx2 : x < (CreateFinishingGraph true cfg w).2.nodes.length) :
    ((CreateFinishingGraph true cfg w).2.isSource x ↔ x = w.nodes.length) ∧
    ((CreateFinishingGraph true cfg w).2.isSink x ↔
      x = w.nodes.length + 1 ∨ (cfg.condition2 = true ∧ x = w.nodes.length + 3)) := by
  rw [CreateFinishingGraph_eq _ _ w h] at hx2 ⊢
  obtain ⟨j, rfl⟩ : ∃ j, x = w.nodes.length + j := ⟨x - w.nodes.length, by
    simp only [NodePtr] at *; omega⟩
  obtain ⟨c2, c4, c7, a1, a2, a3, a4, a5, a6, a7⟩ := cfg
  cases c2 <;> cases c4 <;> cases c7 <;>
  simp [World.isSource, World.isSink, World.directed, h.hard_fresh, h.soft_fresh] at hx2 ⊢ <;>
  simp only [NodePtr] at * <;>
  omega

/-- C11, counterexample: with the sample dataflow graph (whose start is its
only source and whose end its only sink), from the empty state, the returned
end is node 15 and the entry is node 10 or node 12, according to the reading
of line 99; node 0 (`taskDependencyGraph1.start`) is a created node without
incoming directed edge and is not the entry, node 11 (`dataflowGraph1.end`) is
a created node without outgoing directed edge and is not the returned end, and
the entry node 12 of the second reading has an incoming edge. -/
theorem C11_counterexample_several_sources_and_sinks :
    DataflowSingleSourceSink DataflowGraph_sample ∧
    (∀ name : DataflowName,
      (ExampleGraph_Create name DataflowGraph_sample cfgTask1Only World.empty).2 =
        (ExampleGraph_Create_body DataflowGraph_sample cfgTask1Only World.empty).2) ∧
    (ExampleGraph_Create DataflowName.dataflowGraph1 DataflowGraph_sample cfgTask1Only
      World.empty).1 = { start := 10, end_ := 15 } ∧
    (ExampleGraph_Create DataflowName.dataflowGraph2 DataflowGraph_sample cfgTask1Only
      World.empty).1 = { start := 12, end_ := 15 } ∧
    (ExampleGraph_Create_body DataflowGraph_sample cfgTask1Only World.empty).2.nodes.length
      = 17 ∧
    (ExampleGraph_Create_body DataflowGraph_sample cfgTask1Only World.empty).2.isSource 0 ∧
    (ExampleGraph_Create_body DataflowGraph_sample cfgTask1Only World.empty).2.isSink 11 ∧
    ¬ (ExampleGraph_Create_body DataflowGraph_sample cfgTask1Only World.empty).2.isSource
      12 := by
  refine ⟨DataflowGraph_sample_singleSourceSink, ?_, by decide, by decide, by decide,
    by decide, by decide, by decide⟩
  intro name
  cases name <;> rfl

/-- C11 as amended: in the graph assembled by `ExampleGraph_Create` (from a
well-formed state, with a `DataflowGraph_Create` whose graphs share no node
with the graphs built before and have their start as only source and their
end as only sink), among all nodes created during the call the nodes without
incoming directed edge are exactly `taskDependencyGraph1.start`,
`taskDependencyGraph2.start` and `dataflowGraph1.start`, and the nodes without
outgoing directed edge are exactly `dataflowGraph1.end`, the returned end node
`finishingGraph.end` and, when `condition2` holds, task6 of the finishing
graph (the node at `finishingGraph.start + 3`). -/
theorem C11_sources_and_sinks (D : World → Graph × World) (cfg : Configuration)
    (w : World) (h : w.WF) (hF : DataflowFrame D) (hL : DataflowLocal D)
    (hS : DataflowSingleSourceSink D) :
    (cfg.condition2 = true →
      (ExampleGraph_Create_body D cfg w).2.nodes[
          (ExampleGraph_Create_body D cfg w).1.finishingGraph.start + 3]? =
        some (Role.task cfg.task6Arg)) ∧
    ∀ x : NodePtr, w.nodes.length ≤ x →
      x < (ExampleGraph_Create_body D cfg w).2.nodes.length →
      ((ExampleGraph_Create_body D cfg w).2.isSource x ↔
        x = (ExampleGraph_Create_body D cfg w).1.taskDependencyGraph1.start ∨
        x = (ExampleGraph_Create_body D cfg w).1.taskDependencyGraph2.start ∨
        x = (ExampleGraph_Create_body D cfg w).1.dataflowGraph1.start) ∧
      ((ExampleGraph_Create_body D cfg w).2.isSink x ↔
        x = (ExampleGraph_Create_body D cfg w).1.dataflowGraph1.end_ ∨
        x = (ExampleGraph_Create_body D cfg w).1.finishingGraph.end_ ∨
        (cfg.condition2 = true ∧
          x = (ExampleGraph_Create_body D cfg w).1.finishingGraph.start + 3)) := by
  obtain ⟨w2, w3, w4, df1, df2, hw2, hw3, hw4, hn2, hh2, hs2, -, -, hD1, hD2, hG, hW⟩ :=
    ExampleGraph_Create_body_stages D cfg w h hF
  have hf3 := hF w2 hw2
  have hl3 := hL w2 hw2
  have hS3 := hS w2 hw2
  rw [hD1] at hf3 hl3 hS3
  have hf4 := hF w3 hw3
  have hl4 := hL w3 hw3
  have hS4 := hS w3 hw3
  rw [hD2] at hf4 hl4 hS4
  simp only at hf3 hl3 hS3 hf4 hl4 hS4
  have hlen2 : w2.nodes.length = w.nodes.length + 10 := by rw [hn2]; simp
  have hlenF : (ExampleGraph_Create_body D cfg w).2.nodes.length =
      (CreateFinishingGraph true cfg w4).2.nodes.length := by
    rw [hW]; simp
  have hnodesF : (ExampleGraph_Create_body D cfg w).2.nodes =
      (CreateFinishingGraph true cfg w4).2.nodes := by
    rw [hW]; simp
  -- sources and sinks of the two task dependency graphs
  have hE2 : ∀ x : NodePtr, w.nodes.length ≤ x → x < w.nodes.length + 10 →
      (w2.isSource x ↔ x = w.nodes.length ∨ x = w.nodes.length + 5) ∧
      (w2.isSink x ↔ x = w.nodes.length + 4 ∨ x = w.nodes.length + 9) := by
    intro x hx1 hx2
    obtain ⟨j, rfl⟩ : ∃ j, x = w.nodes.length + j := ⟨x - w.nodes.length, by
      simp only [NodePtr] at *; omega⟩
    simp [World.isSource, World.isSink, World.directed, hh2, hs2, h.hard_fresh,
      h.soft_fresh]
    simp only [NodePtr] at *
    omega
  -- the three links of lines 94, 95 and 97
  have hv1 := World.isSource_isSink_of_add_edge (CreateFinishingGraph true cfg w4).2
    (Utility_LinkDirectedSoft (w.nodes.length + 4) df2.start
      (Utility_LinkUndirected df1.end_ (w.nodes.length + 5)
        (Utility_LinkUndirected df1.end_ w.nodes.length
          (CreateFinishingGraph true cfg w4).2))) (w.nodes.length + 4) df2.start
  have hv2 := World.isSource_isSink_of_add_edge
    (Utility_LinkDirectedSoft (w.nodes.length + 4) df2.start
      (Utility_LinkUndirected df1.end_ (w.nodes.length + 5)
        (Utility_LinkUndirected df1.end_ w.nodes.length
          (CreateFinishingGraph true cfg w4).2)))
    (Utility_LinkDirectedHard (w.nodes.length + 9) df2.start
      (Utility_LinkDirectedSoft (w.nodes.length + 4) df2.start
        (Utility_LinkUndirected df1.end_ (w.nodes.length + 5)
          (Utility_LinkUndirected df1.end_ w.nodes.length
            (CreateFinishingGraph true cfg w4).2)))) (w.nodes.length + 9) df2.start
  have hv3 := World.isSource_isSink_of_add_edge
    (Utility_LinkDirectedHard (w.nodes.length + 9) df2.start
      (Utility_LinkDirectedSoft (w.nodes.length + 4) df2.start
        (Utility_LinkUndirected df1.end_ (w.nodes.length + 5)
          (Utility_LinkUndirected df1.end_ w.nodes.length
            (CreateFinishingGraph true cfg w4).2))))
    (ExampleGraph_Create_body D cfg w).2 df2.end_ w4.nodes.length
  have hloc5 := CreateFinishingGraph_local true cfg w4 hw4
  have hmono5 := CreateFinishingGraph_directed_mono true cfg w4
  constructor
  · intro hc2
    rw [hG, hnodesF, CreateFinishingGraph_eq true cfg w4 hw4]
    obtain ⟨c2, c4, c7, a1, a2, a3, a4, a5, a6, a7⟩ := cfg
    simp only at hc2
    subst hc2
    cases c7 <;> simp <;> simp [List.getElem_append_right]
  intro x hx1 hx2
  obtain ⟨s1, k1⟩ := hv1 x (fun e => by
    rw [mem_directed_LinkDirectedSoft, directed_LinkUndirected, directed_LinkUndirected])
  obtain ⟨s2, k2⟩ := hv2 x (fun e => by rw [mem_directed_LinkDirectedHard])
  obtain ⟨s3, k3⟩ := hv3 x (fun e => by rw [hW, mem_directed_LinkDirectedHard])
  rw [hG, s3, s2, s1, k3, k2, k1]
  rw [hlenF] at hx2
  simp only
  by_cases c4 : x < w4.nodes.length
  · obtain ⟨s54, k54⟩ := World.isSource_isSink_of_local w4 (CreateFinishingGraph true cfg w4).2
      w4.nodes.length x hmono5
      (fun e he ho => by
        rcases hloc5 e he with h1 | h1
        · exact absurd h1 ho
        · exact ⟨h1.1, h1.2.1⟩) c4
    rw [s54, k54]
    by_cases c3 : x < w3.nodes.length
    · obtain ⟨s43, k43⟩ := World.isSource_isSink_of_local w3 w4 w3.nodes.length x
        hl4.2.2.1 hl4.2.2.2 c3
      rw [s43, k43]
      by_cases c2 : x < w2.nodes.length
      · obtain ⟨s32, k32⟩ := World.isSource_isSink_of_local w2 w3 w2.nodes.length x
          hl3.2.2.1 hl3.2.2.2 c2
        obtain ⟨s2', k2'⟩ := hE2 x hx1 (by rw [← hlen2]; exact c2)
        rw [s32, k32, s2', k2']
        cases cfg.condition2 <;> simp only [NodePtr] at * <;> simp <;> omega
      · obtain ⟨s3', k3'⟩ := hS3 x (Nat.le_of_not_lt c2) c3
        rw [s3', k3']
        cases cfg.condition2 <;> simp only [NodePtr] at * <;> simp <;> omega
    · obtain ⟨s4', k4'⟩ := hS4 x (Nat.le_of_not_lt c3) c4
      rw [s4', k4']
      cases cfg.condition2 <;> simp only [NodePtr] at * <;> simp <;> omega
  · obtain ⟨s5', k5'⟩ := CreateFinishingGraph_true_sources_sinks cfg w4 hw4 x
      (Nat.le_of_not_lt c4) hx2
    rw [s5', k5']
    cases cfg.condition2 <;> simp only [NodePtr] at * <;> simp <;> omega

/-- Witness of the amended C11 with the sample dataflow graph and
`cfgPrimaryOnly` (`condition2` true), from the empty state: node 0
(`taskDependencyGraph1.start`) is a source, and node 17, task6 of the
finishing graph that starts at node 14, is a sink. -/
theorem C11_sources_and_sinks_witness :
    World.empty.WF ∧ DataflowFrame DataflowGraph_sample ∧
    DataflowLocal DataflowGraph_sample ∧ DataflowSingleSourceSink DataflowGraph_sample ∧
    ((ExampleGraph_Create_body DataflowGraph_sample cfgPrimaryOnly World.empty).2.isSource 0 ↔
      0 = 0 ∨ 0 = 5 ∨ 0 = 10) ∧
    ((ExampleGraph_Create_body DataflowGraph_sample cfgPrimaryOnly World.empty).2.isSink 17 ↔
      17 = 11 ∨ 17 = 15 ∨ (cfgPrimaryOnly.condition2 = true ∧ 17 = 14 + 3)) := by
  have h := (C11_sources_and_sinks DataflowGraph_sample cfgPrimaryOnly World.empty
    World.empty_WF DataflowGraph_sample_frame DataflowGraph_sample_local
    DataflowGraph_sample_singleSourceSink).2
  exact ⟨World.empty_WF, DataflowGraph_sample_frame, DataflowGraph_sample_local,
    DataflowGraph_sample_singleSourceSink,
    (h 0 (by decide) (by decide)).1, (h 17 (by decide) (by decide)).2⟩

/-! ## The path through the finishing graph -/

/-- The two edges of the path from the start of the finishing graph through
the first task node created (task3, task1 or task2) to its end. -/
theorem CreateFinishingGraph_two_edges (condition1 : Bool) (cfg : Configuration) (w : World) :
    (CreateFinishingGraph condition1 cfg w).2.Edge w.nodes.length (w.nodes.length + 2) ∧
    (CreateFinishingGraph condition1 cfg w).2.Edge (w.nodes.length + 2)
      (w.nodes.length + 1) := by
  obtain ⟨c2, c4, c7, a1, a2, a3, a4, a5, a6, a7⟩ := cfg
  constructor
  all_goals
    cases condition1 <;> cases c2 <;> cases c4 <;> cases c7 <;>
    simp [World.Edge, World.directed, CreateFinishingGraph, Utility_CreateStart,
      Utility_CreateTask, Utility_CreateEnd,
      Configuration_GetCondition2, Configuration_GetCondition4, Configuration_GetCondition7,
      Configuration_GetTask1Arg, Configuration_GetTask2Arg, Configuration_GetTask3Arg,
      Configuration_GetTask4Arg, Configuration_GetTask5Arg, Configuration_GetTask6Arg,
      Configuration_GetTask7Arg]

/-- C1: for every combination of the flags `condition1`, `condition2`,
`condition4` and `condition7` (and every state the builder starts from), the
graph returned by `CreateFinishingGraph` contains a path of directed edges
from the returned start node to the returned end node: the two nodes differ,
the builder registers the hard edge from start to the first task node it
creates (task3, task1 or task2, at position `n+2`) and the hard or soft edge
from that node to end, so a path of at least one edge (here two) leads from
start to end. -/
theorem C1_finishing_start_reaches_end (condition1 : Bool) (cfg : Configuration) (w : World) :
    (CreateFinishingGraph condition1 cfg w).1.start ≠
      (CreateFinishingGraph condition1 cfg w).1.end_ ∧
    (CreateFinishingGraph condition1 cfg w).2.nodes[w.nodes.length + 2]? =
      some (Role.task (if condition1 && cfg.condition2 then cfg.task3Arg
        else if condition1 then cfg.task1Arg else cfg.task2Arg)) ∧
    (w.nodes.length + 2 ≠ (CreateFinishingGraph condition1 cfg w).1.start ∧
      w.nodes.length + 2 ≠ (CreateFinishingGraph condition1 cfg w).1.end_) ∧
    ((CreateFinishingGraph condition1 cfg w).1.start, w.nodes.length + 2) ∈
      (CreateFinishingGraph condition1 cfg w).2.hard ∧
    (w.nodes.length + 2, (CreateFinishingGraph condition1 cfg w).1.end_) ∈
      (CreateFinishingGraph condition1 cfg w).2.directed ∧
    Relation.TransGen (CreateFinishingGraph condition1 cfg w).2.Edge
      (CreateFinishingGraph condition1 cfg w).1.start
      (CreateFinishingGraph condition1 cfg w).1.end_ ∧
    (CreateFinishingGraph condition1 cfg w).2.Reachable
      (CreateFinishingGraph condition1 cfg w).1.start
      (CreateFinishingGraph condition1 cfg w).1.end_ := by
  obtain ⟨h1, h2⟩ := CreateFinishingGraph_two_edges condition1 cfg w
  have hr := CreateFinishingGraph_reachable condition1 cfg w
  rw [CreateFinishingGraph_graph] at hr ⊢
  refine ⟨?_, ?_, ⟨?_, ?_⟩, ?_, h2,
    Relation.TransGen.head h1 (Relation.TransGen.single h2), hr⟩
  · simp
  · rw [(CreateFinishingGraph_nodes_calls condition1 cfg w).1]
    obtain ⟨c2, c4, c7, a1, a2, a3, a4, a5, a6, a7⟩ := cfg
    cases condition1 <;> cases c2 <;> cases c4 <;> cases c7 <;> simp <;>
      simp [List.getElem_append_right]
  · simp
  · simp
  · obtain ⟨c2, c4, c7, a1, a2, a3, a4, a5, a6, a7⟩ := cfg
    cases condition1 <;> cases c2 <;> cases c4 <;> cases c7 <;>
    simp [CreateFinishingGraph, Utility_CreateStart,
      Utility_CreateTask, Utility_CreateEnd,
      Configuration_GetCondition2, Configuration_GetCondition4, Configuration_GetCondition7,
      Configuration_GetTask1Arg, Configuration_GetTask2Arg, Configuration_GetTask3Arg,
      Configuration_GetTask4Arg, Configuration_GetTask5Arg, Configuration_GetTask6Arg,
      Configuration_GetTask7Arg]

/-- Witness of C1 at `condition1` false and `cfgOptionalBranch`, from the empty
state: start is node 0, end node 1, task2 node 2, and the path is the hard
edge (0, 2) followed by the soft edge (2, 1). -/
theorem C1_finishing_start_reaches_end_witness :
    (CreateFinishingGraph false cfgOptionalBranch World.empty).1 = { start := 0, end_ := 1 } ∧
    (0, 2) ∈ (CreateFinishingGraph false cfgOptionalBranch World.empty).2.hard ∧
    (2, 1) ∈ (CreateFinishingGraph false cfgOptionalBranch World.empty).2.soft ∧
    Relation.TransGen (CreateFinishingGraph false cfgOptionalBranch World.empty).2.Edge 0 1 := by
  have h := C1_finishing_start_reaches_end false cfgOptionalBranch World.empty
  exact ⟨by decide, h.2.2.2.1, by decide, h.2.2.2.2.2.1⟩

end ExampleGraph
